import Mathlib

/-!
# Whisper node session driver (`whisper/wnode/wnode.go`)

A shallow embedding of the parts of the node driver that deal with bloom
obfuscation, topic derivation, the historic-message request loop and the
message loop, together with theorems about them.

Conventions of the embedding:
* a Go `byte` is a `Nat` below 256, a `[]byte` and a Go `string` are `List Nat`;
* a `uint32` is a `Nat` below `2 ^ 32`;
* a run-time panic (slice index out of range) is `none`;
* `utils.Fatalf` (the process exits) is a distinguished result.
-/

namespace Wnode

/-! ## Session entropy and bloom obfuscation -/

/-- Size of the entropy buffer: `const entropySize = 32`. -/
def entropySize : Nat := 32

/-- Size in bytes of a whisper bloom filter (`whisper.BloomFilterSize`). -/
def BloomFilterSize : Nat := 64

/-- The session entropy `var entropy [entropySize]byte`: exactly 32 bytes. -/
structure Entropy where
  bytes : List Nat
  size_eq : bytes.length = entropySize
  byte_lt : ∀ b ∈ bytes, b < 256

/-- Indexing `entropy[i]`. -/
def Entropy.at (e : Entropy) (i : Nat) : Nat := e.bytes.getD i 0

/-- The constant `half = entropySize / 2` of `obfuscateBloom`. -/
def half : Nat := entropySize / 2

/-- The bit number `x` that iteration `i` of the loop of `obfuscateBloom` computes:
`x := int(entropy[i]); if entropy[half+i] < 128 { x += 256 }`. -/
def bitNumber (e : Entropy) (i : Nat) : Nat :=
  let x := e.at i
  if e.at (half + i) < 128 then x + 256 else x

/-- The assignment `bloom[k] = v` on a Go slice; `none` is the index-out-of-range panic. -/
def setByte (bloom : List Nat) (k v : Nat) : Option (List Nat) :=
  if k < bloom.length then some (bloom.set k v) else none

/-- The loop of `obfuscateBloom`, with `n` iterations left, starting at index `i`:
each iteration executes `bloom[x/8] = 1 << uint(x%8)`. -/
def obfuscateLoop (e : Entropy) : Nat → Nat → List Nat → Option (List Nat)
  | 0, _, bloom => some bloom
  | n + 1, i, bloom =>
    let x := bitNumber e i
    match setByte bloom (x / 8) (1 <<< (x % 8)) with
    | none => none
    | some bloom1 => obfuscateLoop e n (i + 1) bloom1

/-- The function `obfuscateBloom(bloom []byte)`: `for i := 0; i < half; i++ { ... }`.
The slice is updated in place; the embedding returns the updated slice. -/
def obfuscateBloom (e : Entropy) (bloom : List Nat) : Option (List Nat) :=
  obfuscateLoop e half 0 bloom

/-- The loop of `obfuscateBloom`, instrumented: next to the bloom it records the
bit numbers `x` in the order in which the iterations compute them. -/
def obfuscateLoopTrace (e : Entropy) : Nat → Nat → List Nat → Option (List Nat × List Nat)
  | 0, _, bloom => some (bloom, [])
  | n + 1, i, bloom =>
    let x := bitNumber e i
    match setByte bloom (x / 8) (1 <<< (x % 8)) with
    | none => none
    | some bloom1 =>
      match obfuscateLoopTrace e n (i + 1) bloom1 with
      | none => none
      | some (out, xs) => some (out, x :: xs)

/-- The instrumented `obfuscateBloom`: the resulting bloom and the bit numbers used. -/
def obfuscateBloomTrace (e : Entropy) (bloom : List Nat) : Option (List Nat × List Nat) :=
  obfuscateLoopTrace e half 0 bloom

/-- Bit number `p` of a bloom: bit `p % 8` of byte `p / 8`. -/
def bitSet (bloom : List Nat) (p : Nat) : Bool :=
  (bloom.getD (p / 8) 0).testBit (p % 8)

/-- The bit numbers that are set in `after` and were not set in `before`. -/
def newBits (before after : List Nat) : List Nat :=
  (List.range (8 * after.length)).filter (fun p => bitSet after p && !bitSet before p)

/-! ## Results of fallible code -/

/-- Outcome of a piece of driver code: a value, a call of `utils.Fatalf` (the
process prints the message and exits), or a run-time fault of the Go runtime. -/
inductive Result (α : Type) where
  | ok (a : α)
  | fatal (msg : String)
  | crash
  deriving DecidableEq

/-- Sequencing: a fatal error or a fault ends the computation. -/
def Result.bind {α β : Type} (r : Result α) (f : α → Result β) : Result β :=
  match r with
  | .ok a => f a
  | .fatal msg => .fatal msg
  | .crash => .crash

instance : Monad Result where
  pure := Result.ok
  bind := Result.bind

/-! ## Go strings and standard-library helpers -/

/-- A Go `string`: a sequence of bytes. -/
abbrev GoString := List Nat

/-- The bytes of an ASCII literal. -/
def str (s : String) : GoString := s.toList.map Char.toNat

/-- Value of a hexadecimal digit (`encoding/hex`), `none` for any other byte. -/
def fromHexChar (c : Nat) : Option Nat :=
  if 48 ≤ c ∧ c ≤ 57 then some (c - 48)
  else if 97 ≤ c ∧ c ≤ 102 then some (c - 97 + 10)
  else if 65 ≤ c ∧ c ≤ 70 then some (c - 65 + 10)
  else none

/-- The library function `hex.DecodeString`: the decoded bytes, or `none` when an
error is returned (a byte that is not a hexadecimal digit, or an odd length). -/
def DecodeString : GoString → Option (List Nat)
  | [] => some []
  | [_] => none
  | p :: q :: rest =>
    match fromHexChar p, fromHexChar q with
    | some a, some b =>
      match DecodeString rest with
      | some r => some ((a * 16 + b) :: r)
      | none => none
    | _, _ => none

/-- Value of a non-empty string of decimal digits, `none` otherwise. -/
def parseDigits (s : GoString) : Option Nat :=
  if s.isEmpty then none
  else s.foldl (fun acc c =>
    match acc with
    | none => none
    | some n => if 48 ≤ c ∧ c ≤ 57 then some (n * 10 + (c - 48)) else none) (some 0)

/-- The library function `strconv.Atoi` where `int` has 64 bits: an optional sign
followed by decimal digits, with a value that fits `int`; `none` when an error is
returned. -/
def Atoi (s : GoString) : Option Int :=
  match s with
  | [] => none
  | c :: rest =>
    if c = 45 then
      match parseDigits rest with
      | some n => if n ≤ 2 ^ 63 then some (-(n : Int)) else none
      | none => none
    else
      match parseDigits (if c = 43 then rest else s) with
      | some n => if n < 2 ^ 63 then some (n : Int) else none
      | none => none

/-- The conversion `uint32(i)` of an `int`. -/
def toUint32 (i : Int) : Nat := (i % 2 ^ 32).toNat

/-- The library function `strings.TrimRight(txt, "\n\r")`. -/
def trimRight (txt : GoString) : GoString :=
  (txt.reverse.dropWhile (fun c => c = 10 || c = 13)).reverse

/-- The library function `binary.BigEndian.PutUint32(b, v)`: it writes
`byte(v >> 24)`, `byte(v >> 16)`, `byte(v >> 8)`, `byte(v)` to `b[0]` .. `b[3]`. -/
def PutUint32 (b : List Nat) (v : Nat) : List Nat :=
  (((b.set 0 ((v >>> 24) % 256)).set 1 ((v >>> 16) % 256)).set 2 ((v >>> 8) % 256)).set 3
    (v % 256)

/-- The library function `binary.BigEndian.Uint32` on the first four bytes. -/
def Uint32 (b : List Nat) : Nat :=
  b.getD 0 0 <<< 24 ||| b.getD 1 0 <<< 16 ||| b.getD 2 0 <<< 8 ||| b.getD 3 0

/-- Standard input: the successive results of `input.ReadString` up to a line
feed, each with its delimiter; after the last one the read fails. -/
abbrev Stdin := List GoString

/-! ## The whisper library, as far as the driver uses it -/

/-- Length in bytes of a topic (`whisper.TopicLength`). -/
def TopicLength : Nat := 4

/-- The functions of the whisper library that the code below calls. They are
external to the driver; `TopicToBloom` allocates `BloomFilterSize` bytes. -/
structure Whisper where
  BytesToTopic : List Nat → List Nat
  TopicToBloom : List Nat → List Nat
  TopicToBloom_size : ∀ t, (TopicToBloom t).length = BloomFilterSize
  MakeFullNodeBloom : List Nat
  NewSentMessage : List Nat → Bool
  Wrap : List Nat → Option (List Nat)
  RequestHistoricMessages : List Nat → Bool

/-- The key derivation `pbkdf2.Key(password, salt, iter, keyLen, sha512.New)`; it
returns `keyLen` bytes. -/
structure KDF where
  Key : List Nat → List Nat → Nat → Nat → List Nat
  Key_length : ∀ p s iter n, (Key p s iter n).length = n

/-! ## Configuration and session state -/

/-- An ECDSA public key; its coordinates are pointers that may be nil. -/
structure PublicKey where
  X : Option Nat
  Y : Option Nat
  deriving DecidableEq

/-- An ECDSA private key with the public key it embeds. -/
structure PrivateKey where
  PublicKey : PublicKey
  D : Nat
  deriving DecidableEq

/-- The fields of `Config` (`config.go`) that the code below reads. -/
structure Config where
  ForwarderMode : Bool
  MailServerMode : Bool
  RequestMail : Bool
  AsymmetricMode : Bool
  FileExMode : Bool
  EchoMode : Bool
  UseSelfPubKey : Bool
  ArgPub : GoString
  ArgIDFile : GoString
  ArgEnode : GoString
  ArgTopic : GoString
  ArgSaveDir : GoString
  ArgSymPass : GoString
  ArgPrivateKeyFile : GoString
  deriving DecidableEq

/-- The package-level variables of `wnode.go` that hold the session state. -/
structure Session where
  config : Config
  symKey : Option (List Nat)
  pub : Option PublicKey
  asymKey : Option PrivateKey
  nodeid : Option PrivateKey
  topic : List Nat
  symPass : GoString
  msPassword : GoString
  deriving DecidableEq

/-- The zero value of `whisper.TopicType`. -/
def zeroTopic : List Nat := [0, 0, 0, 0]

/-- The session state when `StartNode` stores the configuration: every variable
has its zero value. -/
def Session.init (cfg : Config) : Session :=
  ⟨cfg, none, none, none, none, zeroTopic, [], []⟩

/-- What `processArgs` consults outside the program: key files
(`crypto.LoadECDSA`), the decoding of a public key from its hexadecimal text
(`crypto.ToECDSAPub(common.FromHex(..))`, a pointer that may be nil) and the file
system (`os.Stat`). -/
structure Env where
  LoadECDSA : GoString → Option PrivateKey
  ToECDSAPub : GoString → Option PublicKey
  dirExists : GoString → Bool

/-- The constant `enodePrefix` of `processArgs`. -/
def enodePrefix : GoString := str "enode://"

/-- The function `isKeyValid`: `k.X != nil && k.Y != nil`; a nil `k` faults. -/
def isKeyValid (k : Option PublicKey) : Result Bool :=
  match k with
  | none => .crash
  | some key => .ok (key.X.isSome && key.Y.isSome)

/-- The function `processArgs`, as a transformer of the session state. The calls
`flag.Parse()` and `echo()` (which only prints) leave the state unchanged. -/
def processArgs (env : Env) (w : Whisper) (s0 : Session) : Result Session := do
  let s1 ←
    if s0.config.ArgIDFile.length > 0 then
      match env.LoadECDSA s0.config.ArgIDFile with
      | none => Result.fatal "Failed to load file"
      | some k => Result.ok { s0 with nodeid := some k }
    else Result.ok s0
  let s2 ←
    if s1.config.ArgPrivateKeyFile.length > 0 then
      match env.LoadECDSA s1.config.ArgPrivateKeyFile with
      | none => Result.fatal "Failed to load file"
      | some k => Result.ok { s1 with asymKey := some k }
    else Result.ok s1
  let s3 ←
    if s2.config.ArgEnode.length > 0 then
      -- the slice expression `(config.ArgEnode)[:len(enodePrefix)]`
      if enodePrefix.length ≤ s2.config.ArgEnode.length then
        if s2.config.ArgEnode.take enodePrefix.length ≠ enodePrefix then
          Result.ok { s2 with config := { s2.config with ArgEnode := enodePrefix ++ s2.config.ArgEnode } }
        else Result.ok s2
      else Result.crash
    else Result.ok s2
  let s4 ←
    if s3.config.ArgTopic.length > 0 then
      match DecodeString s3.config.ArgTopic with
      | none => Result.fatal "Failed to parse the topic"
      | some x => Result.ok { s3 with topic := w.BytesToTopic x }
    else Result.ok s3
  let s5 ←
    if s4.config.AsymmetricMode && decide (s4.config.ArgPub.length > 0) then
      let p := env.ToECDSAPub s4.config.ArgPub
      match isKeyValid p with
      | .ok true => Result.ok { s4 with pub := p }
      | .ok false => Result.fatal "invalid public key"
      | .fatal msg => Result.fatal msg
      | .crash => Result.crash
    else Result.ok s4
  if s5.config.ArgSaveDir.length > 0 then
    if env.dirExists s5.config.ArgSaveDir then Result.ok s5
    else Result.fatal "Download directory does not exist"
  else if s5.config.FileExMode then
    Result.fatal "Parameter savedir is mandatory for file exchange mode"
  else Result.ok s5

/-- The function `generateTopic`: `for i := 0; i < len(x); i++ { topic[i%TopicLength] ^= x[i] }`
with `x := pbkdf2.Key(password, password, 4096, 128, sha512.New)`. -/
def generateTopic (kdf : KDF) (password : List Nat) (topic : List Nat) : List Nat :=
  let x := kdf.Key password password 4096 128
  (List.range x.length).foldl
    (fun t i => t.set (i % TopicLength) (t.getD (i % TopicLength) 0 ^^^ x.getD i 0)) topic

/-! ## Console input -/

/-- The function `scanLine`: read up to the next line feed, fatal when the read
fails, strip the trailing line feeds and carriage returns. -/
def scanLine (stdin : Stdin) : Result (GoString × Stdin) :=
  match stdin with
  | [] => .fatal "input error"
  | txt :: rest => .ok (trimRight txt, rest)

/-- The function `scanUint`: `strconv.Atoi` on the line read, `utils.Fatalf` when
it fails, else `uint32(i)`. -/
def scanUint (stdin : Stdin) : Result (Nat × Stdin) :=
  match scanLine stdin with
  | .ok (s, rest) =>
    match Atoi s with
    | none => .fatal "Fail to parse the lower time limit"
    | some i => .ok (toUint32 i, rest)
  | .fatal msg => .fatal msg
  | .crash => .crash

/-! ## The historic-message request loop -/

/-- Lines 719-726 of `requestExpiredMessagesLoop`: the normalisation of the upper
bound and the serialisation of the request payload. -/
def requestPayload (timeLow timeUpp : Nat) (bloom : List Nat) : List Nat :=
  let upp := if timeUpp = 0 then 0xFFFFFFFF else timeUpp
  let data := List.replicate 8 0
  let data1 := PutUint32 data timeLow
  let data2 := data1.take 4 ++ PutUint32 (data1.drop 4) upp
  data2 ++ bloom

/-- What the first part of an iteration of the request loop produces. -/
inductive Built where
  | aborted (console : String)
  | payload (data : List Nat)
  deriving DecidableEq

/-- Lines 700-726 of `requestExpiredMessagesLoop`: read the two bounds and the
topic, choose the bloom, build the payload. `aborted` is the `continue` after an
error has been printed. -/
def buildRequest (w : Whisper) (e : Entropy) (stdin : Stdin) : Result (Built × Stdin) := do
  let (timeLow, in1) ← scanUint stdin
  let (timeUpp, in2) ← scanUint in1
  let (t, in3) ← scanLine in2
  if t.length = TopicLength * 2 then
    match DecodeString t with
    | none => Result.ok (Built.aborted "Failed to parse the topic", in3)
    | some x =>
      let xt := w.BytesToTopic x
      let bloom := w.TopicToBloom xt
      match obfuscateBloom e bloom with
      | none => Result.crash
      | some bloom1 => Result.ok (Built.payload (requestPayload timeLow timeUpp bloom1), in3)
  else if t.length = 0 then
    Result.ok (Built.payload (requestPayload timeLow timeUpp w.MakeFullNodeBloom), in3)
  else
    Result.ok (Built.aborted "Error: topic is invalid, request aborted", in3)

/-- Lines 728-747 of `requestExpiredMessagesLoop`: create, seal and send the
request; each failure is fatal. -/
def sendRequest (w : Whisper) (data : List Nat) : Result Unit :=
  if w.NewSentMessage data then
    match w.Wrap data with
    | none => .fatal "Wrap failed"
    | some envelope =>
      if w.RequestHistoricMessages envelope then .ok ()
      else .fatal "Failed to send P2P message"
  else .fatal "failed to create new message"

/-- One iteration of the loop of `requestExpiredMessagesLoop`. The result
`Built.payload data` means that the request with this payload was sent. -/
def requestIteration (w : Whisper) (e : Entropy) (stdin : Stdin) : Result (Built × Stdin) :=
  match buildRequest w e stdin with
  | .ok (Built.aborted console, rest) => .ok (Built.aborted console, rest)
  | .ok (Built.payload data, rest) =>
    match sendRequest w data with
    | .ok _ => .ok (Built.payload data, rest)
    | .fatal msg => .fatal msg
    | .crash => .crash
  | .fatal msg => .fatal msg
  | .crash => .crash

/-- The loop of `requestExpiredMessagesLoop`, run for at most `n` iterations: the
payloads of the requests sent, in order, and how the run ended (`ok` when the
loop is still running after `n` iterations). -/
def requestExpiredMessagesLoop (w : Whisper) (e : Entropy) :
    Nat → Stdin → List (List Nat) × Result Unit
  | 0, _ => ([], .ok ())
  | n + 1, stdin =>
    match requestIteration w e stdin with
    | .ok (Built.aborted _, rest) => requestExpiredMessagesLoop w e n rest
    | .ok (Built.payload data, rest) =>
      let r := requestExpiredMessagesLoop w e n rest
      (data :: r.1, r.2)
    | .fatal msg => ([], .fatal msg)
    | .crash => ([], .crash)

/-! ## The message loop -/

/-- The fields of `whisper.ReceivedMessage` that the driver reads. -/
structure ReceivedMessage where
  Payload : List Nat
  Sent : Nat
  Src : Option PublicKey
  EnvelopeHash : List Nat
  deriving DecidableEq

/-- Lower-case hexadecimal digit of a value below 16. -/
def hexDigit (n : Nat) : Nat := if n < 10 then 48 + n else 87 + n

/-- The formatting `fmt.Sprintf("%x", h)` of a hash: two lower-case digits per byte. -/
def hexEncode (b : List Nat) : GoString :=
  b.flatMap (fun x => [hexDigit (x / 16), hexDigit (x % 16)])

/-- What the message loop does that can be observed from outside. -/
inductive Event where
  | printMessageInfo (msg : ReceivedMessage)
  | envelopeNotFound (hash : List Nat)
  | writeFile (dir name : GoString) (data : List Nat)
  | notSaved (msg : ReceivedMessage)
  | savedAs (msg : ReceivedMessage) (name : GoString) (size : Nat)
  deriving DecidableEq

/-- What `writeMessageToFile` consults outside the program: the envelope store
(`shh.GetEnvelope`, the data of the envelope or nil) and the file system
(`ioutil.WriteFile` on `filepath.Join(dir, name)`, true when it succeeds). -/
structure Store where
  GetEnvelope : List Nat → Option (List Nat)
  WriteFile : GoString → GoString → List Nat → Bool

/-- The function `writeMessageToFile`. -/
def writeMessageToFile (st : Store) (dir : GoString) (msg : ReceivedMessage) (isShown : Bool) :
    List Event :=
  if dir.length = 0 then []
  else
    let name := hexEncode msg.EnvelopeHash
    match st.GetEnvelope msg.EnvelopeHash with
    | none => [Event.envelopeNotFound msg.EnvelopeHash]
    | some data =>
      if st.WriteFile dir name data then
        Event.writeFile dir name data ::
          (if isShown then [Event.savedAs msg name data.length] else [])
      else [Event.writeFile dir name data, Event.notSaved msg]

/-- The body of the `for _, msg := range messages` loop of `messageLoop`. -/
def handleMessage (cfg : Config) (st : Store) (msg : ReceivedMessage) : List Event :=
  let reportedOnce := !cfg.FileExMode && decide (msg.Payload.length ≤ 2048)
  (if reportedOnce then [Event.printMessageInfo msg] else []) ++
  (if cfg.ArgSaveDir.length > 0 then writeMessageToFile st cfg.ArgSaveDir msg (!reportedOnce)
   else [])

/-- One tick of `messageLoop`: `m1` and `m2` are what `sf.Retrieve()` and
`af.Retrieve()` return; `messages := append(m1, m2...)`. -/
def messageLoopTick (cfg : Config) (st : Store) (m1 m2 : List ReceivedMessage) : List Event :=
  (m1 ++ m2).flatMap (handleMessage cfg st)

/-! ## Concrete inputs -/

/-- The entropy buffer whose 32 bytes are all zero. -/
def zeroEntropy : Entropy := ⟨List.replicate 32 0, by decide, by decide⟩

/-- A 64-byte bloom whose only set bit is bit number 257 (byte 32 is `0x02`); it is
the bloom of the topic `01010107`. -/
def bloom257 : List Nat := (List.replicate 64 0).set 32 2

/-- A stand-in for the whisper library on concrete inputs: `BytesToTopic` copies
at most four bytes into a zero topic, `TopicToBloom` writes one bit for each of the
first three topic bytes, the full bloom has every bit set, sealing and sending
succeed. -/
def refWhisper : Whisper where
  BytesToTopic := fun b => (b ++ zeroTopic).take TopicLength
  TopicToBloom := fun t =>
    let index := fun j => t.getD j 0 + (if (t.getD 3 0).testBit j then 256 else 0)
    (((List.replicate BloomFilterSize 0).set (index 0 / 8) (1 <<< (index 0 % 8))).set
      (index 1 / 8) (1 <<< (index 1 % 8))).set (index 2 / 8) (1 <<< (index 2 % 8))
  TopicToBloom_size := by intro t; simp
  MakeFullNodeBloom := List.replicate BloomFilterSize 255
  NewSentMessage := fun _ => true
  Wrap := fun data => some data
  RequestHistoricMessages := fun _ => true

/-- A stand-in for the key derivation on concrete inputs: byte `i` of the key is
`i` plus the length of the password, modulo 256. -/
def refKDF : KDF where
  Key := fun p _ _ n => (List.range n).map (fun i => (i + p.length) % 256)
  Key_length := by intro p s iter n; simp

/-- A configuration with every switch off and every string empty. -/
def emptyConfig : Config :=
  ⟨false, false, false, false, false, false, false, [], [], [], [], [], [], []⟩

/-- A stand-in for the outside world of `processArgs`: no key file can be loaded,
no public key decodes, every directory exists. -/
def refEnv : Env := ⟨fun _ => none, fun _ => none, fun _ => true⟩

/-- Specification side of `generateTopic`: the XOR of the bytes `K[i]` with
`i < n` and `i % 4 = j`. -/
def xorFold (K : List Nat) (n j : Nat) : Nat :=
  ((List.range n).filter (fun i => i % 4 = j)).foldl (fun a i => a ^^^ K.getD i 0) 0

/-- The message of a `printMessageInfo` event. -/
def Event.printed : Event → Option ReceivedMessage
  | .printMessageInfo msg => some msg
  | _ => none

/-- A received message with a payload of `n` zero bytes. -/
def msgOfSize (n : Nat) : ReceivedMessage := ⟨List.replicate n 0, 0, none, []⟩

/-- A stand-in for the envelope store and the file system: no envelope is found,
every write succeeds. -/
def refStore : Store := ⟨fun _ => none, fun _ _ _ => true⟩

/-! ## Console reports of the message loop -/

/-- Whether an event of the message loop is a line written to the console (every
event but the file write). -/
def Event.isConsole : Event → Bool
  | .writeFile _ _ _ => false
  | _ => true

/-- The file writes among the events, as directory, file name and content. -/
def Event.written : Event → Option (GoString × GoString × List Nat)
  | .writeFile dir name data => some (dir, name, data)
  | _ => none

/-! ## Sending (`sendMsg`, `sendLoop`) -/

/-- The fields of `Config` that `configureNode` and `sendMsg` read and that are not
part of `Config` above: `ArgDBPath`, `ArgTTL`, `ArgWorkTime` and `ArgPoW` (a
`float64` that is only copied, kept as an uninterpreted code). -/
structure ConfigExt where
  ArgDBPath : GoString
  ArgTTL : Nat
  ArgWorkTime : Nat
  ArgPoW : Nat
  deriving DecidableEq

/-- The value `whisper.MessageParams` that `sendMsg` builds. -/
structure MessageParams where
  Src : Option PrivateKey
  Dst : Option PublicKey
  KeySym : Option (List Nat)
  Payload : List Nat
  Topic : List Nat
  TTL : Nat
  PoW : Nat
  WorkTime : Nat
  deriving DecidableEq

/-- The whisper functions that `sendMsg` calls: `NewSentMessage` (false when it
returns an error), `Wrap` (the sealed envelope, `none` on error), `shh.Send`
(false on error) and `envelope.Hash()`. -/
structure Transport where
  NewSentMessage : MessageParams → Bool
  Wrap : MessageParams → Option (List Nat)
  Send : List Nat → Bool
  Hash : List Nat → List Nat

/-- The zero value `common.Hash{}`. -/
def zeroHash : List Nat := List.replicate 32 0

/-- The composite literal `whisper.MessageParams{...}` of `sendMsg`. -/
def messageParams (x : ConfigExt) (s : Session) (payload : List Nat) : MessageParams :=
  ⟨s.asymKey, s.pub, s.symKey, payload, s.topic, x.ArgTTL % 2 ^ 32, x.ArgPoW,
    x.ArgWorkTime % 2 ^ 32⟩

/-- The function `sendMsg`. -/
def sendMsg (t : Transport) (x : ConfigExt) (s : Session) (payload : List Nat) :
    Result (List Nat) :=
  let params := messageParams x s payload
  if t.NewSentMessage params then
    match t.Wrap params with
    | none => .ok zeroHash
    | some envelope =>
      if t.Send envelope then .ok (t.Hash envelope) else .ok zeroHash
  else .fatal "failed to create new message"

/-- How a run of an interactive loop has ended after a number of iterations. -/
inductive LoopEnd where
  | running
  | returned
  | fatal (msg : String)
  | crash
  deriving DecidableEq

/-- The constant `quitCommand`. -/
def quitCommand : GoString := str "~Q"

/-- The function `sendLoop`, run for at most `n` iterations: the hashes that
`sendMsg` returned, in order, and how the run ended. In asymmetric mode the loop
echoes the message with the address of `asymKey.PublicKey`. -/
def sendLoop (t : Transport) (x : ConfigExt) (s : Session) :
    Nat → Stdin → List (List Nat) × LoopEnd
  | 0, _ => ([], .running)
  | n + 1, stdin =>
    match scanLine stdin with
    | .fatal msg => ([], .fatal msg)
    | .crash => ([], .crash)
    | .ok (line, rest) =>
      if line = quitCommand then ([], .returned)
      else
        match sendMsg t x s line with
        | .fatal msg => ([], .fatal msg)
        | .crash => ([], .crash)
        | .ok h =>
          if s.config.AsymmetricMode && s.asymKey.isNone then ([h], .crash)
          else
            let r := sendLoop t x s n rest
            (h :: r.1, r.2)

/-! ## Node configuration (`configureNode`) -/

/-- A `whisper.Filter` with the fields that `configureNode` fills in. -/
structure Filter where
  KeySym : Option (List Nat)
  KeyAsym : Option PrivateKey
  Topics : List (List Nat)
  AllowP2P : Bool
  deriving DecidableEq

/-- What `configureNode` consults outside the program: `common.FromHex` (`none` is
the nil slice), `crypto.ToECDSAPub` (a pointer that may be nil), the key store
(`shh.AddSymKeyFromPassword`, `shh.GetSymKey`, `none` on error) and the filter
registry (`shh.Subscribe`, the filter identifier or `none` on error). -/
structure NodeEnv where
  FromHex : GoString → Option (List Nat)
  ToECDSAPub : List Nat → Option PublicKey
  AddSymKeyFromPassword : GoString → Option GoString
  GetSymKey : GoString → Option (List Nat)
  Subscribe : Filter → Option GoString

/-- The state that `configureNode` works on: the session variables, the further
configuration fields, the pending console input and the pending answers of
`console.Stdin.PromptPassword` (`none` is an answer that fails). -/
structure NodeState where
  session : Session
  ext : ConfigExt
  stdin : Stdin
  passwords : List (Option GoString)
  deriving DecidableEq

/-- The call `console.Stdin.PromptPassword`, fatal with `msg` when it fails. -/
def promptPassword (msg : String) (st : NodeState) : Result (GoString × NodeState) :=
  match st.passwords with
  | some p :: rest => .ok (p, { st with passwords := rest })
  | _ => .fatal msg

/-- Lines 330-347 of `configureNode`: the destination public key in asymmetric
mode when none was configured. -/
def configurePub (ne : NodeEnv) (st : NodeState) : Result NodeState :=
  if st.session.config.AsymmetricMode then
    if st.session.config.ArgPub.length = 0 then
      if st.session.config.UseSelfPubKey then
        match st.session.asymKey with
        | none => .crash
        | some k => .ok { st with session := { st.session with pub := some k.PublicKey } }
      else
        match scanLine st.stdin with
        | .fatal msg => .fatal msg
        | .crash => .crash
        | .ok (line, rest) =>
          match ne.FromHex line with
          | none => .fatal "Error: can not convert hexadecimal string"
          | some b =>
            match isKeyValid (ne.ToECDSAPub b) with
            | .ok true =>
              .ok { st with session := { st.session with pub := ne.ToECDSAPub b }, stdin := rest }
            | .ok false => .fatal "Error: invalid public key"
            | .fatal msg => .fatal msg
            | .crash => .crash
    else .ok st
  else .ok st

/-- Lines 349-357 of `configureNode`: the mail server password; the flag
`p2pAccept` is `config.RequestMail`. -/
def configureMailPassword (st : NodeState) : Result NodeState :=
  if st.session.config.RequestMail then
    if st.session.msPassword.length = 0 then
      match promptPassword "Failed to read Mail Server password" st with
      | .ok (p, st1) => .ok { st1 with session := { st1.session with msPassword := p } }
      | .fatal msg => .fatal msg
      | .crash => .crash
    else .ok st
  else .ok st

/-- Lines 359-380 of `configureNode`: the symmetric key and the derived topic. -/
def configureSymKey (ne : NodeEnv) (kdf : KDF) (st : NodeState) : Result NodeState :=
  if !st.session.config.AsymmetricMode && !st.session.config.ForwarderMode then
    let r :=
      if st.session.symPass.length = 0 then
        match promptPassword "Failed to read passphrase" st with
        | .ok (p, st1) => Result.ok { st1 with session := { st1.session with symPass := p } }
        | .fatal msg => .fatal msg
        | .crash => .crash
      else Result.ok st
    match r with
    | .fatal msg => .fatal msg
    | .crash => .crash
    | .ok st1 =>
      match ne.AddSymKeyFromPassword st1.session.symPass with
      | none => .fatal "Failed to create symmetric key"
      | some symKeyID =>
        match ne.GetSymKey symKeyID with
        | none => .fatal "Failed to save symmetric key"
        | some key =>
          let s2 : Session := { st1.session with symKey := some key }
          let s3 : Session :=
            if s2.config.ArgTopic.length = 0 then
              { s2 with topic := generateTopic kdf s2.symPass s2.topic }
            else s2
          .ok { st1 with session := s3 }
  else .ok st

/-- Lines 382-386 of `configureNode`: the path of the mail server database. -/
def configureDBPath (st : NodeState) : Result NodeState :=
  if st.session.config.MailServerMode then
    if st.ext.ArgDBPath.length = 0 then
      match scanLine st.stdin with
      | .ok (line, rest) => .ok { st with ext := { st.ext with ArgDBPath := line }, stdin := rest }
      | .fatal msg => .fatal msg
      | .crash => .crash
    else .ok st
  else .ok st

/-- The symmetric filter of `configureNode` (line 388). -/
def symFilter (s : Session) : Filter :=
  ⟨s.symKey, none, [s.topic], s.config.RequestMail⟩

/-- The asymmetric filter of `configureNode` (line 398). -/
def asymFilter (s : Session) : Filter :=
  ⟨none, s.asymKey, [s.topic], s.config.RequestMail⟩

/-- What `configureNode` leaves behind: the state, the identifiers of the two
filters and the filters passed to `shh.Subscribe`, in order. -/
structure Configured where
  state : NodeState
  symFilterID : GoString
  asymFilterID : GoString
  filters : List Filter
  deriving DecidableEq

/-- Lines 388-406 of `configureNode`: both filters are registered. -/
def installFilters (ne : NodeEnv) (st : NodeState) : Result Configured :=
  match ne.Subscribe (symFilter st.session) with
  | none => .fatal "Failed to install filter"
  | some symID =>
    match ne.Subscribe (asymFilter st.session) with
    | none => .fatal "Failed to install filter"
    | some asymID => .ok ⟨st, symID, asymID, [symFilter st.session, asymFilter st.session]⟩

/-- The function `configureNode`. In forwarder mode it returns at once. -/
def configureNode (ne : NodeEnv) (kdf : KDF) (st : NodeState) : Result Configured :=
  if st.session.config.ForwarderMode then .ok ⟨st, [], [], []⟩
  else do
    let st1 ← configurePub ne st
    let st2 ← configureMailPassword st1
    let st3 ← configureSymKey ne kdf st2
    let st4 ← configureDBPath st3
    installFilters ne st4

/-! ## Further concrete inputs -/

/-- A private key used on concrete inputs. -/
def refKey : PrivateKey := ⟨⟨some 1, some 2⟩, 3⟩

/-- A stand-in for the outside world of `configureNode`: hexadecimal text decodes
with `DecodeString`, no public key decodes, the key of a password is the password,
a filter is registered under the identifier `f`. -/
def refNodeEnv : NodeEnv :=
  ⟨DecodeString, fun _ => none, fun p => some p, fun id => some id, fun _ => some (str "f")⟩

/-- The further configuration fields at their defaults (`ArgTTL` 30, `ArgWorkTime` 5). -/
def refExt : ConfigExt := ⟨[], 30, 5, 0⟩

/-- A stand-in for the whisper functions of `sendMsg`: a message is created unless
the payload is empty, sealing fails on the payload `w`, sending fails on the
payload `s`, the hash of an envelope is its first byte repeated 32 times. -/
def refTransport : Transport :=
  ⟨fun p => !p.Payload.isEmpty,
    fun p => if p.Payload = str "w" then none else some p.Payload,
    fun env => env != str "s",
    fun env => List.replicate 32 (env.headD 0)⟩

/-- A stand-in for the envelope store and the file system in which the envelope of
every message is found with the data `[1, 2, 3]` and every write succeeds. -/
def fullStore : Store := ⟨fun _ => some [1, 2, 3], fun _ _ _ => true⟩

/-- A stand-in for the envelope store and the file system in which the envelope of
every message is found and every write fails. -/
def failStore : Store := ⟨fun _ => some [1, 2, 3], fun _ _ _ => false⟩

/-! ## The stages of `processArgs`

The same code as `processArgs`, cut after each `if` statement: each function runs
one statement and hands the state to the next one. -/

/-- The last statement of `processArgs`: the check of the save directory. -/
def argsSaveDir (env : Env) (s5 : Session) : Result Session :=
  if s5.config.ArgSaveDir.length > 0 then
    if env.dirExists s5.config.ArgSaveDir then Result.ok s5
    else Result.fatal "Download directory does not exist"
  else if s5.config.FileExMode then
    Result.fatal "Parameter savedir is mandatory for file exchange mode"
  else Result.ok s5

/-- The statements of `processArgs` from the public key on. -/
def argsPub (env : Env) (s4 : Session) : Result Session :=
  if s4.config.AsymmetricMode && decide (s4.config.ArgPub.length > 0) then
    match isKeyValid (env.ToECDSAPub s4.config.ArgPub) with
    | .ok true =>
      (Result.ok { s4 with pub := env.ToECDSAPub s4.config.ArgPub }).bind (argsSaveDir env)
    | .ok false => (Result.fatal "invalid public key").bind (argsSaveDir env)
    | .fatal msg => (Result.fatal msg).bind (argsSaveDir env)
    | .crash => Result.crash.bind (argsSaveDir env)
  else (Result.ok s4).bind (argsSaveDir env)

/-- The statements of `processArgs` from the topic on. -/
def argsTopic (env : Env) (w : Whisper) (s3 : Session) : Result Session :=
  if s3.config.ArgTopic.length > 0 then
    match DecodeString s3.config.ArgTopic with
    | none => (Result.fatal "Failed to parse the topic").bind (argsPub env)
    | some x => (Result.ok { s3 with topic := w.BytesToTopic x }).bind (argsPub env)
  else (Result.ok s3).bind (argsPub env)

/-- The statements of `processArgs` from the peer address on. -/
def argsEnode (env : Env) (w : Whisper) (s2 : Session) : Result Session :=
  if s2.config.ArgEnode.length > 0 then
    if enodePrefix.length ≤ s2.config.ArgEnode.length then
      if s2.config.ArgEnode.take enodePrefix.length ≠ enodePrefix then
        (Result.ok { s2 with
          config := { s2.config with ArgEnode := enodePrefix ++ s2.config.ArgEnode } }).bind
          (argsTopic env w)
      else (Result.ok s2).bind (argsTopic env w)
    else Result.crash.bind (argsTopic env w)
  else (Result.ok s2).bind (argsTopic env w)

/-- The statements of `processArgs` from the private key file on. -/
def argsPrivateKey (env : Env) (w : Whisper) (s1 : Session) : Result Session :=
  if s1.config.ArgPrivateKeyFile.length > 0 then
    match env.LoadECDSA s1.config.ArgPrivateKeyFile with
    | none => (Result.fatal "Failed to load file").bind (argsEnode env w)
    | some k => (Result.ok { s1 with asymKey := some k }).bind (argsEnode env w)
  else (Result.ok s1).bind (argsEnode env w)

/-- All statements of `processArgs`, from the identity file on. -/
def argsIDFile (env : Env) (w : Whisper) (s0 : Session) : Result Session :=
  if s0.config.ArgIDFile.length > 0 then
    match env.LoadECDSA s0.config.ArgIDFile with
    | none => (Result.fatal "Failed to load file").bind (argsPrivateKey env w)
    | some k => (Result.ok { s0 with nodeid := some k }).bind (argsPrivateKey env w)
  else (Result.ok s0).bind (argsPrivateKey env w)

/-- The state in which `configureNode` starts in a symmetric session on concrete
inputs: nothing configured but the password `pw`, the key pair present. -/
def symState : NodeState :=
  ⟨{ Session.init emptyConfig with symPass := str "pw", asymKey := some refKey }, refExt, [], []⟩

/-- The session that `configureNode` leaves from `symState`. -/
def symSession : Session :=
  { symState.session with
    symKey := some (str "pw"), topic := generateTopic refKDF (str "pw") zeroTopic }

/-- An asymmetric configuration that listens with its own public key. -/
def asymConfig : Config := { emptyConfig with AsymmetricMode := true, UseSelfPubKey := true }

/-- The state in which `configureNode` starts with `asymConfig`, the key pair
present. -/
def asymState : NodeState :=
  ⟨{ Session.init asymConfig with asymKey := some refKey }, refExt, [], []⟩

/-- The session that `configureNode` leaves from `asymState`. -/
def asymSession : Session := { asymState.session with pub := some refKey.PublicKey }

/-! # Theorems -/

set_option maxRecDepth 100000

/-! ## Bloom obfuscation: lemmas -/

theorem Entropy.at_lt (e : Entropy) (i : Nat) : e.at i < 256 := by
  unfold Entropy.at
  by_cases h : i < e.bytes.length
  · rw [List.getD_eq_getElem _ _ h]
    exact e.byte_lt _ (List.getElem_mem h)
  · rw [List.getD_eq_default _ _ (by omega)]
    decide

theorem bitNumber_lt (e : Entropy) (i : Nat) : bitNumber e i < 512 := by
  unfold bitNumber
  have h := e.at_lt i
  simp only
  split <;> omega

theorem obfuscateLoop_some (e : Entropy) (n : Nat) :
    ∀ (i : Nat) (bloom : List Nat), BloomFilterSize ≤ bloom.length →
      ∃ out, obfuscateLoop e n i bloom = some out ∧ out.length = bloom.length := by
  induction n with
  | zero => intro i bloom _; exact ⟨bloom, rfl, rfl⟩
  | succ n ih =>
    intro i bloom hlen
    have hx := bitNumber_lt e i
    have hk : bitNumber e i / 8 < bloom.length := by
      unfold BloomFilterSize at hlen; omega
    obtain ⟨out, hout, hl⟩ := ih (i + 1) (bloom.set (bitNumber e i / 8) (1 <<< (bitNumber e i % 8)))
      (by simpa using hlen)
    refine ⟨out, ?_, by simpa using hl⟩
    simp only [obfuscateLoop, setByte, hk, if_true]
    exact hout

theorem obfuscateLoop_byte (e : Entropy) (n : Nat) :
    ∀ (i : Nat) (bloom out : List Nat), obfuscateLoop e n i bloom = some out →
      ∀ k, out.getD k 0 = bloom.getD k 0 ∨
        ∃ j, i ≤ j ∧ j < i + n ∧ bitNumber e j / 8 = k ∧
          out.getD k 0 = 1 <<< (bitNumber e j % 8) := by
  induction n with
  | zero =>
    intro i bloom out h k
    simp only [obfuscateLoop, Option.some.injEq] at h
    subst h
    exact Or.inl rfl
  | succ n ih =>
    intro i bloom out h k
    simp only [obfuscateLoop, setByte] at h
    split at h
    · exact absurd h (by simp)
    · rename_i bloom1 hset
      split at hset
      · rename_i hk
        simp only [Option.some.injEq] at hset
        subst hset
        rcases ih (i + 1) _ out h k with h1 | ⟨j, hj1, hj2, hj3, hj4⟩
        · by_cases hkk : bitNumber e i / 8 = k
          · right
            refine ⟨i, le_refl _, by omega, hkk, ?_⟩
            rw [h1, ← hkk, List.getD_eq_getElem _ _ (by simpa using hk)]
            simp
          · left
            rw [h1]
            simp [List.getD_eq_getElem?_getD, List.getElem?_set_ne hkk]
        · right
          exact ⟨j, by omega, by omega, hj3, hj4⟩
      · exact absurd hset (by simp)

theorem obfuscateLoopTrace_eq (e : Entropy) (n : Nat) :
    ∀ (i : Nat) (bloom : List Nat), obfuscateLoopTrace e n i bloom =
      (obfuscateLoop e n i bloom).map (fun out => (out, (List.range' i n).map (bitNumber e))) := by
  induction n with
  | zero => intro i bloom; rfl
  | succ n ih =>
    intro i bloom
    simp only [obfuscateLoopTrace, obfuscateLoop]
    cases hs : setByte bloom (bitNumber e i / 8) (1 <<< (bitNumber e i % 8)) with
    | none => rfl
    | some bloom1 =>
      simp only [ih]
      cases obfuscateLoop e n (i + 1) bloom1 with
      | none => rfl
      | some out => simp [List.range'_succ]

theorem obfuscateBloom_new_bit_mem (e : Entropy) (bloom out : List Nat)
    (h : obfuscateBloom e bloom = some out) (p : Nat)
    (hp : bitSet out p = true) (hq : bitSet bloom p = false) :
    p ∈ (List.range' 0 half).map (bitNumber e) := by
  unfold bitSet at hp hq
  rcases obfuscateLoop_byte e half 0 bloom out h (p / 8) with h1 | ⟨j, _, hj2, hj3, hj4⟩
  · rw [h1, hq] at hp
    exact absurd hp (by simp)
  · rw [hj4, Nat.one_shiftLeft, Nat.testBit_two_pow] at hp
    have hpe : bitNumber e j % 8 = p % 8 := by simpa using hp
    have : bitNumber e j = p := by omega
    rw [List.mem_map]
    exact ⟨j, by simp [List.mem_range']; omega, this⟩

theorem newBits_length_le (e : Entropy) (bloom out : List Nat)
    (h : obfuscateBloom e bloom = some out) : (newBits bloom out).length ≤ 16 := by
  have hsub : newBits bloom out ⊆ (List.range' 0 half).map (bitNumber e) := by
    intro p hp
    unfold newBits at hp
    rw [List.mem_filter] at hp
    have h2 := hp.2
    simp only [Bool.and_eq_true, Bool.not_eq_true', ] at h2
    exact obfuscateBloom_new_bit_mem e bloom out h p h2.1 h2.2
  have hnd : (newBits bloom out).Nodup := (List.nodup_range _).filter _
  have := (List.subperm_of_subset hnd hsub).length_le
  simpa [half, entropySize] using this

/-! ## Bloom obfuscation: claims -/

/-- C1, evaluated on the code: with the all-zero entropy buffer and the 64-byte
bloom whose only set bit is bit 257, `obfuscateBloom` returns a bloom in which bit
257 is no longer set. The assignment `bloom[x/8] = 1 << uint(x%8)` replaces the
whole byte 32 by `0x01`, so a bit that was set before the call is cleared. -/
theorem obfuscateBloom_clears_set_bit :
    refWhisper.TopicToBloom [0x01, 0x01, 0x01, 0x07] = bloom257 ∧
    bloom257.length = 64 ∧ bitSet bloom257 257 = true ∧
    ∃ out, obfuscateBloom zeroEntropy bloom257 = some out ∧ bitSet out 257 = false :=
  ⟨by decide, by decide, by decide, (List.replicate 64 0).set 32 1, by decide, by decide⟩

/-- C2, counterexample: with the all-zero entropy buffer the sixteen bit numbers
computed by `obfuscateBloom` are all 256, and on the all-zero 64-byte bloom the call
turns on one bit, bit 256, not sixteen distinct ones. -/
theorem obfuscateBloom_zero_entropy_one_bit :
    ∃ out xs, obfuscateBloomTrace zeroEntropy (List.replicate 64 0) = some (out, xs) ∧
      xs = List.replicate 16 256 ∧ newBits (List.replicate 64 0) out = [256] ∧
      (newBits (List.replicate 64 0) out).length ≠ 16 :=
  ⟨(List.replicate 64 0).set 32 1, List.replicate 16 256, by decide, rfl, by decide,
    by decide⟩

/-- C2, amended: on a bloom of at least 64 bytes `obfuscateBloom` returns, it
computes sixteen bit numbers, one per entropy pair, which need not be distinct;
every bit that is set after the call and was not set before it is at one of these
bit numbers, so the call turns on at most 16 bits. -/
theorem obfuscateBloom_new_bits_le (e : Entropy) (bloom : List Nat)
    (hlen : BloomFilterSize ≤ bloom.length) :
    ∃ out xs, obfuscateBloomTrace e bloom = some (out, xs) ∧ xs.length = 16 ∧
      (∀ p, bitSet out p = true → bitSet bloom p = false → p ∈ xs) ∧
      (newBits bloom out).length ≤ 16 := by
  obtain ⟨out, hout, _⟩ := obfuscateLoop_some e half 0 bloom hlen
  refine ⟨out, (List.range' 0 half).map (bitNumber e), ?_, by simp [half, entropySize], ?_, ?_⟩
  · simp [obfuscateBloomTrace, obfuscateLoopTrace_eq, hout]
  · exact fun p hp hq => obfuscateBloom_new_bit_mem e bloom out hout p hp hq
  · exact newBits_length_le e bloom out hout

/-- Witness of `obfuscateBloom_new_bits_le`: the all-zero entropy buffer and the
all-zero 64-byte bloom. -/
theorem obfuscateBloom_new_bits_le_witness :
    BloomFilterSize ≤ (List.replicate 64 0).length ∧
    ∃ out xs, obfuscateBloomTrace zeroEntropy (List.replicate 64 0) = some (out, xs) ∧
      xs.length = 16 ∧
      (∀ p, bitSet out p = true → bitSet (List.replicate 64 0) p = false → p ∈ xs) ∧
      (newBits (List.replicate 64 0) out).length ≤ 16 :=
  ⟨by decide, obfuscateBloom_new_bits_le zeroEntropy (List.replicate 64 0) (by decide)⟩

/-- C3: the bit numbers that `obfuscateBloom` uses depend on the entropy buffer
only. On any two blooms of at least 64 bytes the call returns and uses the same
sixteen bit numbers, in the same order: for `i` in 0..15 the number is
`E[i] + 256` when `E[16+i] < 128` and `E[i]` otherwise; each is below 2047. -/
theorem obfuscateBloom_positions (e : Entropy) (b1 b2 : List Nat)
    (h1 : BloomFilterSize ≤ b1.length) (h2 : BloomFilterSize ≤ b2.length) :
    ∃ o1 o2 xs, obfuscateBloomTrace e b1 = some (o1, xs) ∧
      obfuscateBloomTrace e b2 = some (o2, xs) ∧
      xs = (List.range 16).map
        (fun i => if e.at (16 + i) < 128 then e.at i + 256 else e.at i) ∧
      ∀ x ∈ xs, x < 2047 := by
  obtain ⟨o1, ho1, _⟩ := obfuscateLoop_some e half 0 b1 h1
  obtain ⟨o2, ho2, _⟩ := obfuscateLoop_some e half 0 b2 h2
  refine ⟨o1, o2, (List.range' 0 half).map (bitNumber e), ?_, ?_, ?_, ?_⟩
  · simp [obfuscateBloomTrace, obfuscateLoopTrace_eq, ho1]
  · simp [obfuscateBloomTrace, obfuscateLoopTrace_eq, ho2]
  · rw [← List.range_eq_range']
    rfl
  · intro x hx
    rw [List.mem_map] at hx
    obtain ⟨i, _, rfl⟩ := hx
    have := bitNumber_lt e i
    omega

/-- Witness of `obfuscateBloom_positions`: the all-zero entropy buffer, the
all-zero bloom and the bloom of the topic `01010107`. -/
theorem obfuscateBloom_positions_witness :
    (BloomFilterSize ≤ (List.replicate 64 0).length ∧ BloomFilterSize ≤ bloom257.length) ∧
    ∃ o1 o2 xs, obfuscateBloomTrace zeroEntropy (List.replicate 64 0) = some (o1, xs) ∧
      obfuscateBloomTrace zeroEntropy bloom257 = some (o2, xs) ∧
      xs = (List.range 16).map
        (fun i => if zeroEntropy.at (16 + i) < 128 then zeroEntropy.at i + 256
          else zeroEntropy.at i) ∧
      ∀ x ∈ xs, x < 2047 :=
  ⟨⟨by decide, by decide⟩,
    obfuscateBloom_positions zeroEntropy (List.replicate 64 0) bloom257 (by decide) (by decide)⟩

/-! ## Topic derivation -/

theorem xorStep_length (x : List Nat) (n : Nat) (t : List Nat) :
    ((List.range n).foldl
      (fun t i => t.set (i % TopicLength) (t.getD (i % TopicLength) 0 ^^^ x.getD i 0)) t).length
      = t.length := by
  induction n with
  | zero => rfl
  | succ n ih =>
    simp only [List.range_succ, List.foldl_append, List.foldl_cons, List.foldl_nil,
      List.length_set]
    exact ih

theorem xorStep_getD (x : List Nat) (t : List Nat) (ht : t.length = 4) (n : Nat) :
    ∀ j, j < 4 →
    ((List.range n).foldl
      (fun t i => t.set (i % TopicLength) (t.getD (i % TopicLength) 0 ^^^ x.getD i 0)) t).getD j 0
      = t.getD j 0 ^^^ xorFold x n j := by
  induction n with
  | zero => intro j _; simp [xorFold]
  | succ n ih =>
    intro j hj
    have hlen := xorStep_length x n t
    simp only [List.range_succ, List.foldl_append, List.foldl_cons, List.foldl_nil]
    have hm : n % TopicLength < 4 := Nat.mod_lt _ (by decide)
    by_cases hnj : n % 4 = j
    · have hnj2 : n % TopicLength = j := hnj
      rw [hnj2, List.getD_eq_getElem _ _ (by rw [List.length_set, hlen, ht]; exact hj)]
      rw [List.getElem_set_self, ih j hj]
      simp [xorFold, List.range_succ, List.filter_append, hnj, List.foldl_append,
        Nat.xor_assoc]
    · have hnj2 : n % TopicLength ≠ j := hnj
      rw [List.getD_eq_getElem?_getD, List.getElem?_set_ne hnj2, ← List.getD_eq_getElem?_getD,
        ih j hj]
      simp [xorFold, List.range_succ, List.filter_append, hnj]

/-- C5: for every password `p`, `generateTopic` run on the all-zero topic yields
the 4-byte topic whose byte `j` is the XOR of the bytes `K[i]`, `i < 128`,
`i % 4 = j`, where `K` is the 128-byte key derived from password `p` with salt `p`
and 4096 iterations. The topic is a function of the password alone. -/
theorem generateTopic_xor_fold (kdf : KDF) (p : List Nat) :
    generateTopic kdf p zeroTopic =
      (List.range 4).map (xorFold (kdf.Key p p 4096 128) 128) := by
  apply List.ext_getElem
  · rw [List.length_map, List.length_range]
    exact xorStep_length _ _ _
  · intro j h1 h2
    have hj : j < 4 := by simpa using h2
    have h := xorStep_getD (kdf.Key p p 4096 128) zeroTopic rfl
      (kdf.Key p p 4096 128).length j hj
    rw [kdf.Key_length] at h
    rw [← List.getD_eq_getElem _ 0 h1]
    unfold generateTopic
    simp only [kdf.Key_length]
    have hz : zeroTopic.getD j 0 = 0 := by
      unfold zeroTopic
      interval_cases j <;> rfl
    rw [h, hz, Nat.zero_xor]
    simp

/-! ## Request payload -/

theorem bytes_or (a b c d : Nat) (hb : b < 256) (hc : c < 256) (hd : d < 256) :
    a <<< 24 ||| b <<< 16 ||| c <<< 8 ||| d = a * 16777216 + b * 65536 + c * 256 + d := by
  have e1 : a <<< 24 ||| b <<< 16 = 2 ^ 16 * (a * 256 + b) := by
    have h := Nat.mul_add_lt_is_or (i := 24) (b := b * 2 ^ 16) (by omega) a
    rw [Nat.shiftLeft_eq, Nat.shiftLeft_eq, Nat.mul_comm a, ← h]
    omega
  have e2 : 2 ^ 16 * (a * 256 + b) ||| c <<< 8 = 2 ^ 8 * (a * 65536 + b * 256 + c) := by
    have h := Nat.mul_add_lt_is_or (i := 16) (b := c * 2 ^ 8) (by omega) (a * 256 + b)
    rw [Nat.shiftLeft_eq, ← h]
    omega
  have e3 : 2 ^ 8 * (a * 65536 + b * 256 + c) ||| d =
      2 ^ 8 * (a * 65536 + b * 256 + c) + d :=
    (Nat.mul_add_lt_is_or (i := 8) (by omega) _).symm
  rw [e1, e2, e3]
  omega

theorem Uint32_PutUint32 (v : Nat) (hv : v < 2 ^ 32) (b0 b1 b2 b3 : Nat) (tl : List Nat) :
    Uint32 (PutUint32 [b0, b1, b2, b3] v ++ tl) = v := by
  simp only [PutUint32, Uint32, List.set, List.cons_append, List.getD_cons_zero,
    List.getD_cons_succ]
  rw [bytes_or _ _ _ _ (Nat.mod_lt _ (by decide)) (Nat.mod_lt _ (by decide))
    (Nat.mod_lt _ (by decide))]
  simp only [Nat.shiftRight_eq_div_pow]
  omega

theorem requestPayload_eq (low high : Nat) (B : List Nat) :
    requestPayload low high B =
      PutUint32 [0, 0, 0, 0] low ++
        (PutUint32 [0, 0, 0, 0] (if high = 0 then 0xFFFFFFFF else high) ++ B) := by
  simp [requestPayload, PutUint32, List.replicate]

theorem PutUint32_length4 (v : Nat) : (PutUint32 [0, 0, 0, 0] v).length = 4 := by
  simp [PutUint32]

/-- C6: for 32-bit timestamps `low` and `high` with `high` non-zero and any bloom
bytes `B`, the request payload has length `8 + len(B)`, its bytes 0..3 decode
big-endian to `low`, its bytes 4..7 decode to `high`, the remaining bytes are `B`;
for `low = 1000`, `high = 2000` the first 8 bytes are `00 00 03 E8 00 00 07 D0`. -/
theorem requestPayload_layout (low high : Nat) (B : List Nat)
    (hl : low < 2 ^ 32) (hh : high < 2 ^ 32) (hz : high ≠ 0) :
    (requestPayload low high B).length = 8 + B.length ∧
      Uint32 (requestPayload low high B) = low ∧
      Uint32 ((requestPayload low high B).drop 4) = high ∧
      (requestPayload low high B).drop 8 = B ∧
      (requestPayload 1000 2000 B).take 8 = [0x00, 0x00, 0x03, 0xE8, 0x00, 0x00, 0x07, 0xD0] := by
  rw [requestPayload_eq, if_neg hz]
  refine ⟨?_, ?_, ?_, ?_, ?_⟩
  · simp [PutUint32]; omega
  · exact Uint32_PutUint32 low hl 0 0 0 0 _
  · rw [List.drop_append_of_le_length (by simp [PutUint32])]
    simp only [PutUint32_length4 low ▸ List.drop_length (PutUint32 [0, 0, 0, 0] low),
      List.nil_append]
    exact Uint32_PutUint32 high hh 0 0 0 0 _
  · simp [PutUint32]
  · simp [requestPayload, PutUint32]

/-- Witness of `requestPayload_layout`: `low = 1000`, `high = 2000` and a
two-byte bloom. -/
theorem requestPayload_layout_witness :
    (1000 < 2 ^ 32 ∧ 2000 < 2 ^ 32 ∧ 2000 ≠ 0) ∧
    (requestPayload 1000 2000 [7, 9]).length = 8 + [7, 9].length ∧
      Uint32 (requestPayload 1000 2000 [7, 9]) = 1000 ∧
      Uint32 ((requestPayload 1000 2000 [7, 9]).drop 4) = 2000 ∧
      (requestPayload 1000 2000 [7, 9]).drop 8 = [7, 9] ∧
      (requestPayload 1000 2000 [7, 9]).take 8 =
        [0x00, 0x00, 0x03, 0xE8, 0x00, 0x00, 0x07, 0xD0] :=
  ⟨⟨by decide, by decide, by decide⟩,
    requestPayload_layout 1000 2000 [7, 9] (by decide) (by decide) (by decide)⟩

/-- C7: an upper bound `timeUpp` of 0 is serialised as `0xFFFFFFFF` (bytes 4..7
of the payload are `FF FF FF FF`); any other 32-bit upper bound is serialised
unchanged. -/
theorem requestPayload_upper_bound (low high : Nat) (B : List Nat) (hh : high < 2 ^ 32) :
    Uint32 ((requestPayload low high B).drop 4) = (if high = 0 then 0xFFFFFFFF else high) ∧
      ((requestPayload low high B).drop 4).take 4 =
        PutUint32 [0, 0, 0, 0] (if high = 0 then 0xFFFFFFFF else high) ∧
      ((requestPayload low 0 B).drop 4).take 4 = [0xFF, 0xFF, 0xFF, 0xFF] ∧
      Uint32 ((requestPayload low 0 B).drop 4) = 0xFFFFFFFF := by
  have hd : ∀ h : Nat, (requestPayload low h B).drop 4 =
      PutUint32 [0, 0, 0, 0] (if h = 0 then 0xFFFFFFFF else h) ++ B := by
    intro h
    rw [requestPayload_eq, List.drop_append_of_le_length (by simp [PutUint32])]
    simp [PutUint32]
  refine ⟨?_, ?_, ?_, ?_⟩
  · rw [hd]
    apply Uint32_PutUint32
    split <;> omega
  · rw [hd]
    simp [PutUint32]
  · rw [hd]
    simp [PutUint32]
  · rw [hd]
    exact Uint32_PutUint32 _ (by decide) 0 0 0 0 _

/-- Witness of `requestPayload_upper_bound`: `low = 1000`, `high = 2000`. -/
theorem requestPayload_upper_bound_witness :
    2000 < 2 ^ 32 ∧
    (Uint32 ((requestPayload 1000 2000 [7, 9]).drop 4) =
        (if 2000 = 0 then 0xFFFFFFFF else 2000) ∧
      ((requestPayload 1000 2000 [7, 9]).drop 4).take 4 =
        PutUint32 [0, 0, 0, 0] (if 2000 = 0 then 0xFFFFFFFF else 2000) ∧
      ((requestPayload 1000 0 [7, 9]).drop 4).take 4 = [0xFF, 0xFF, 0xFF, 0xFF] ∧
      Uint32 ((requestPayload 1000 0 [7, 9]).drop 4) = 0xFFFFFFFF) :=
  ⟨by decide, requestPayload_upper_bound 1000 2000 [7, 9] (by decide)⟩

/-! ## Argument processing -/

/-- C4, evaluated on the code: `processArgs` does not reject an explicit topic that
is valid hex of a wrong length. With the topic `aabb` (2 bytes) or `aabbccddee`
(5 bytes) and nothing else configured it returns without a fatal error and the
session topic is `BytesToTopic` of the decoded bytes, whereas the request loop
rejects the entered topic `aabb` as invalid. -/
theorem processArgs_accepts_wrong_length_topic (env : Env) (w : Whisper) (e : Entropy) :
    processArgs env w (Session.init { emptyConfig with ArgTopic := str "aabb" }) =
      .ok { Session.init { emptyConfig with ArgTopic := str "aabb" } with
        topic := w.BytesToTopic [0xaa, 0xbb] } ∧
    processArgs env w (Session.init { emptyConfig with ArgTopic := str "aabbccddee" }) =
      .ok { Session.init { emptyConfig with ArgTopic := str "aabbccddee" } with
        topic := w.BytesToTopic [0xaa, 0xbb, 0xcc, 0xdd, 0xee] } ∧
    refWhisper.BytesToTopic [0xaa, 0xbb] = [0xaa, 0xbb, 0, 0] ∧
    refWhisper.BytesToTopic [0xaa, 0xbb, 0xcc, 0xdd, 0xee] = [0xaa, 0xbb, 0xcc, 0xdd] ∧
    buildRequest w e [str "1000\n", str "2000\n", str "aabb\n"] =
      .ok (Built.aborted "Error: topic is invalid, request aborted", []) :=
  ⟨rfl, rfl, by decide, by decide, rfl⟩

/-! ## The request loop -/

theorem buildRequest_of_bounds (w : Whisper) (e : Entropy) (l1 l2 l3 : GoString) (rest : Stdin)
    (a b : Int) (h1 : Atoi (trimRight l1) = some a) (h2 : Atoi (trimRight l2) = some b) :
    buildRequest w e (l1 :: l2 :: l3 :: rest) =
      if (trimRight l3).length = TopicLength * 2 then
        match DecodeString (trimRight l3) with
        | none => Result.ok (Built.aborted "Failed to parse the topic", rest)
        | some x =>
          match obfuscateBloom e (w.TopicToBloom (w.BytesToTopic x)) with
          | none => Result.crash
          | some bloom1 =>
            Result.ok (Built.payload (requestPayload (toUint32 a) (toUint32 b) bloom1), rest)
      else if (trimRight l3).length = 0 then
        Result.ok (Built.payload (requestPayload (toUint32 a) (toUint32 b) w.MakeFullNodeBloom),
          rest)
      else
        Result.ok (Built.aborted "Error: topic is invalid, request aborted", rest) := by
  simp only [buildRequest, scanUint, scanLine, h1, h2, bind, Result.bind]

theorem requestIteration_payload (w : Whisper) (e : Entropy) (stdin rest : Stdin)
    (data : List Nat) (h : buildRequest w e stdin = .ok (Built.payload data, rest)) :
    requestIteration w e stdin =
      (sendRequest w data).bind (fun _ => .ok (Built.payload data, rest)) := by
  simp only [requestIteration, h]
  cases sendRequest w data <;> rfl

theorem requestIteration_aborted (w : Whisper) (e : Entropy) (stdin rest : Stdin)
    (console : String) (h : buildRequest w e stdin = .ok (Built.aborted console, rest)) :
    requestIteration w e stdin = .ok (Built.aborted console, rest) ∧
      ∀ n, requestExpiredMessagesLoop w e (n + 1) stdin =
        requestExpiredMessagesLoop w e n rest := by
  have hi : requestIteration w e stdin = .ok (Built.aborted console, rest) := by
    simp only [requestIteration, h]
  refine ⟨hi, fun n => ?_⟩
  simp only [requestExpiredMessagesLoop, hi]

/-- C8: one iteration of the request loop in which both bounds were read (`a` and
`b`), with `t` the topic line entered. If `t` has 8 bytes and is valid hex with
decoding `x`, the payload is built from `obfuscateBloom` of
`TopicToBloom (BytesToTopic x)` and handed to the sending step. If `t` is empty,
the payload is built from the full-node bloom, not obfuscated. For every other
`t` an error is printed, nothing is built or sent, and the loop goes on with the
rest of the input. -/
theorem requestIteration_topic_cases (w : Whisper) (e : Entropy) (l1 l2 l3 : GoString)
    (rest : Stdin) (a b : Int)
    (h1 : Atoi (trimRight l1) = some a) (h2 : Atoi (trimRight l2) = some b) :
    (∀ x, (trimRight l3).length = 8 → DecodeString (trimRight l3) = some x →
      ∃ bloom1, obfuscateBloom e (w.TopicToBloom (w.BytesToTopic x)) = some bloom1 ∧
        buildRequest w e (l1 :: l2 :: l3 :: rest) =
          .ok (Built.payload (requestPayload (toUint32 a) (toUint32 b) bloom1), rest) ∧
        requestIteration w e (l1 :: l2 :: l3 :: rest) =
          (sendRequest w (requestPayload (toUint32 a) (toUint32 b) bloom1)).bind
            (fun _ => .ok
              (Built.payload (requestPayload (toUint32 a) (toUint32 b) bloom1), rest))) ∧
    (trimRight l3 = [] →
      buildRequest w e (l1 :: l2 :: l3 :: rest) =
        .ok (Built.payload (requestPayload (toUint32 a) (toUint32 b) w.MakeFullNodeBloom),
          rest) ∧
      requestIteration w e (l1 :: l2 :: l3 :: rest) =
        (sendRequest w (requestPayload (toUint32 a) (toUint32 b) w.MakeFullNodeBloom)).bind
          (fun _ => .ok
            (Built.payload (requestPayload (toUint32 a) (toUint32 b) w.MakeFullNodeBloom),
              rest))) ∧
    (trimRight l3 ≠ [] →
      ¬ ((trimRight l3).length = 8 ∧ ∃ x, DecodeString (trimRight l3) = some x) →
      ∃ console,
        buildRequest w e (l1 :: l2 :: l3 :: rest) = .ok (Built.aborted console, rest) ∧
        requestIteration w e (l1 :: l2 :: l3 :: rest) = .ok (Built.aborted console, rest) ∧
        ∀ n, requestExpiredMessagesLoop w e (n + 1) (l1 :: l2 :: l3 :: rest) =
          requestExpiredMessagesLoop w e n rest) := by
  have hb := buildRequest_of_bounds w e l1 l2 l3 rest a b h1 h2
  refine ⟨?_, ?_, ?_⟩
  · intro x hlen hx
    obtain ⟨out, hout, _⟩ := obfuscateLoop_some e half 0 (w.TopicToBloom (w.BytesToTopic x))
      (by rw [w.TopicToBloom_size])
    have hob : obfuscateBloom e (w.TopicToBloom (w.BytesToTopic x)) = some out := hout
    have hbr : buildRequest w e (l1 :: l2 :: l3 :: rest) =
        .ok (Built.payload (requestPayload (toUint32 a) (toUint32 b) out), rest) := by
      rw [hb, if_pos (by rw [hlen]; rfl), hx]
      simp only
      rw [hob]
    exact ⟨out, hob, hbr, requestIteration_payload w e _ rest _ hbr⟩
  · intro ht
    have hbr : buildRequest w e (l1 :: l2 :: l3 :: rest) =
        .ok (Built.payload (requestPayload (toUint32 a) (toUint32 b) w.MakeFullNodeBloom),
          rest) := by
      rw [hb, ht]
      rfl
    exact ⟨hbr, requestIteration_payload w e _ rest _ hbr⟩
  · intro hne hnot
    by_cases hlen : (trimRight l3).length = TopicLength * 2
    · cases hd : DecodeString (trimRight l3) with
      | some x => exact absurd ⟨hlen, x, hd⟩ hnot
      | none =>
        have hbr : buildRequest w e (l1 :: l2 :: l3 :: rest) =
            .ok (Built.aborted "Failed to parse the topic", rest) := by
          rw [hb, if_pos hlen, hd]
        exact ⟨_, hbr, requestIteration_aborted w e _ rest _ hbr⟩
    · have h0 : (trimRight l3).length ≠ 0 := by
        intro h
        exact hne (List.length_eq_zero.mp h)
      have hbr : buildRequest w e (l1 :: l2 :: l3 :: rest) =
          .ok (Built.aborted "Error: topic is invalid, request aborted", rest) := by
        rw [hb, if_neg hlen, if_neg h0]
      exact ⟨_, hbr, requestIteration_aborted w e _ rest _ hbr⟩

/-- Witness of `requestIteration_topic_cases`: the bounds `1000` and `2000` with
the topic lines `aabbccdd`, the empty line, `aabb` and `aabbccdg`. -/
theorem requestIteration_topic_cases_witness :
    (Atoi (trimRight (str "1000\n")) = some 1000 ∧
      Atoi (trimRight (str "2000\n")) = some 2000) ∧
    (∃ bloom1,
      obfuscateBloom zeroEntropy
        (refWhisper.TopicToBloom (refWhisper.BytesToTopic [0xaa, 0xbb, 0xcc, 0xdd])) =
          some bloom1 ∧
      buildRequest refWhisper zeroEntropy [str "1000\n", str "2000\n", str "aabbccdd\n"] =
        .ok (Built.payload (requestPayload (toUint32 1000) (toUint32 2000) bloom1), []) ∧
      requestIteration refWhisper zeroEntropy [str "1000\n", str "2000\n", str "aabbccdd\n"] =
        (sendRequest refWhisper (requestPayload (toUint32 1000) (toUint32 2000) bloom1)).bind
          (fun _ => .ok
            (Built.payload (requestPayload (toUint32 1000) (toUint32 2000) bloom1), []))) ∧
    buildRequest refWhisper zeroEntropy [str "1000\n", str "2000\n", str "\n"] =
      .ok (Built.payload
        (requestPayload (toUint32 1000) (toUint32 2000) refWhisper.MakeFullNodeBloom), []) ∧
    (∃ console,
      requestIteration refWhisper zeroEntropy [str "1000\n", str "2000\n", str "aabb\n"] =
        .ok (Built.aborted console, [])) ∧
    (∃ console,
      requestIteration refWhisper zeroEntropy [str "1000\n", str "2000\n", str "aabbccdg\n"] =
        .ok (Built.aborted console, [])) :=
  ⟨⟨by decide, by decide⟩,
    (requestIteration_topic_cases refWhisper zeroEntropy (str "1000\n") (str "2000\n")
      (str "aabbccdd\n") [] 1000 2000 (by decide) (by decide)).1 [0xaa, 0xbb, 0xcc, 0xdd]
      (by decide) (by decide),
    ((requestIteration_topic_cases refWhisper zeroEntropy (str "1000\n") (str "2000\n")
      (str "\n") [] 1000 2000 (by decide) (by decide)).2.1 (by decide)).1,
    ((requestIteration_topic_cases refWhisper zeroEntropy (str "1000\n") (str "2000\n")
      (str "aabb\n") [] 1000 2000 (by decide) (by decide)).2.2 (by decide)
      (fun h => absurd h.1 (by decide))).imp
      (fun _ h => h.2.1),
    ((requestIteration_topic_cases refWhisper zeroEntropy (str "1000\n") (str "2000\n")
      (str "aabbccdg\n") [] 1000 2000 (by decide) (by decide)).2.2 (by decide)
      (fun h => by
        have hn : DecodeString (trimRight (str "aabbccdg\n")) = none := by decide
        obtain ⟨_, x, hx⟩ := h
        rw [hn] at hx
        cases hx)).imp (fun _ h => h.2.1)⟩

/-- C9, counterexample: the first bound entered is `abc`, followed by the valid
input of two more iterations. The loop ends in the fatal error of `scanUint`
without sending any request: the failure is not recoverable and the following
input is never read. -/
theorem requestLoop_bad_bound_terminates :
    requestExpiredMessagesLoop refWhisper zeroEntropy 3
      [str "abc\n", str "1\n", str "2\n", str "\n", str "3\n", str "4\n", str "\n"] =
      ([], .fatal "Fail to parse the lower time limit") ∧
    requestExpiredMessagesLoop refWhisper zeroEntropy 1
      [str "1\n", str "2\n", str "\n", str "3\n", str "4\n", str "\n"] =
      ([requestPayload 1 2 (List.replicate 64 255)], .ok ()) := by
  constructor <;> decide

/-- C9, amended: a time-range bound that `strconv.Atoi` does not parse is a fatal
error. When the line entered for the lower bound, or for the upper bound after a
parseable lower bound, is not a parseable integer, the iteration ends in
`utils.Fatalf`; the loop sends no request in that iteration and runs no further
iteration. -/
theorem scanUint_failure_is_fatal (w : Whisper) (e : Entropy) (stdin : Stdin)
    (h : (∃ l rest, stdin = l :: rest ∧ Atoi (trimRight l) = none) ∨
      (∃ l1 l2 rest a, stdin = l1 :: l2 :: rest ∧ Atoi (trimRight l1) = some a ∧
        Atoi (trimRight l2) = none)) :
    buildRequest w e stdin = .fatal "Fail to parse the lower time limit" ∧
    requestIteration w e stdin = .fatal "Fail to parse the lower time limit" ∧
    ∀ n, requestExpiredMessagesLoop w e (n + 1) stdin =
      ([], .fatal "Fail to parse the lower time limit") := by
  have hb : buildRequest w e stdin = .fatal "Fail to parse the lower time limit" := by
    rcases h with ⟨l, rest, rfl, hl⟩ | ⟨l1, l2, rest, a, rfl, hl1, hl2⟩
    · simp only [buildRequest, scanUint, scanLine, hl, bind, Result.bind]
    · simp only [buildRequest, scanUint, scanLine, hl1, hl2, bind, Result.bind]
  have hi : requestIteration w e stdin = .fatal "Fail to parse the lower time limit" := by
    simp only [requestIteration, hb]
  refine ⟨hb, hi, fun n => ?_⟩
  simp only [requestExpiredMessagesLoop, hi]

/-- Witness of `scanUint_failure_is_fatal`: the lower bound `abc`. -/
theorem scanUint_failure_is_fatal_witness :
    ((∃ l rest, [str "abc\n", str "1\n"] = l :: rest ∧ Atoi (trimRight l) = none) ∨
      (∃ l1 l2 rest a, [str "abc\n", str "1\n"] = l1 :: l2 :: rest ∧
        Atoi (trimRight l1) = some a ∧ Atoi (trimRight l2) = none)) ∧
    (buildRequest refWhisper zeroEntropy [str "abc\n", str "1\n"] =
        .fatal "Fail to parse the lower time limit" ∧
      requestIteration refWhisper zeroEntropy [str "abc\n", str "1\n"] =
        .fatal "Fail to parse the lower time limit" ∧
      ∀ n, requestExpiredMessagesLoop refWhisper zeroEntropy (n + 1) [str "abc\n", str "1\n"] =
        ([], .fatal "Fail to parse the lower time limit")) :=
  ⟨Or.inl ⟨str "abc\n", [str "1\n"], rfl, by decide⟩,
    scanUint_failure_is_fatal refWhisper zeroEntropy [str "abc\n", str "1\n"]
      (Or.inl ⟨str "abc\n", [str "1\n"], rfl, by decide⟩)⟩

/-! ## The message loop -/

theorem writeMessageToFile_printed (st : Store) (dir : GoString) (msg : ReceivedMessage)
    (isShown : Bool) : (writeMessageToFile st dir msg isShown).filterMap Event.printed = [] := by
  unfold writeMessageToFile
  split
  · rfl
  · simp only
    split
    · rfl
    · split
      · cases isShown <;> rfl
      · rfl

theorem handleMessage_printed (cfg : Config) (st : Store) (msg : ReceivedMessage) :
    (handleMessage cfg st msg).filterMap Event.printed =
      if !cfg.FileExMode && decide (msg.Payload.length ≤ 2048) then [msg] else [] := by
  unfold handleMessage
  simp only [List.filterMap_append]
  have hw : ∀ b, (if cfg.ArgSaveDir.length > 0 then
      writeMessageToFile st cfg.ArgSaveDir msg b else []).filterMap Event.printed = [] := by
    intro b
    split
    · exact writeMessageToFile_printed st _ msg b
    · rfl
  rw [hw]
  split <;> simp [Event.printed]

/-- C10: on a tick the messages of the symmetric filter are handled before those of
the asymmetric filter, and the messages printed to the console by
`printMessageInfo` are, in that order, exactly the messages with a payload of at
most 2048 bytes when file-exchange mode is off, and none when it is on; a payload
of 2048 bytes is printed, one of 2049 bytes is not. -/
theorem messageLoopTick_printed (cfg : Config) (st : Store) (m1 m2 : List ReceivedMessage) :
    messageLoopTick cfg st m1 m2 =
      m1.flatMap (handleMessage cfg st) ++ m2.flatMap (handleMessage cfg st) ∧
    (messageLoopTick cfg st m1 m2).filterMap Event.printed =
      (m1 ++ m2).filter (fun msg => !cfg.FileExMode && decide (msg.Payload.length ≤ 2048)) ∧
    (∀ msg, Event.printMessageInfo msg ∈ handleMessage cfg st msg ↔
      (cfg.FileExMode = false ∧ msg.Payload.length ≤ 2048)) ∧
    (messageLoopTick emptyConfig refStore [msgOfSize 2048] [msgOfSize 2049]).filterMap
      Event.printed = [msgOfSize 2048] := by
  refine ⟨?_, ?_, ?_, ?_⟩
  · simp [messageLoopTick, List.flatMap_append]
  · unfold messageLoopTick
    induction (m1 ++ m2) with
    | nil => rfl
    | cons msg tl ih =>
      rw [List.flatMap_cons, List.filterMap_append, ih, handleMessage_printed, List.filter_cons]
      split <;> rfl
  · intro msg
    constructor
    · intro hmem
      have hp : msg ∈ (handleMessage cfg st msg).filterMap Event.printed :=
        List.mem_filterMap.mpr ⟨_, hmem, rfl⟩
      rw [handleMessage_printed] at hp
      split at hp
      · rename_i hc
        simpa using hc
      · exact absurd hp (by simp)
    · rintro ⟨hf, hl⟩
      unfold handleMessage
      simp [hf, hl]
  · simp [messageLoopTick, handleMessage, writeMessageToFile, emptyConfig, msgOfSize,
      Event.printed]


/-! ## Console reports and file writes of the message loop -/

theorem writeMessageToFile_of_saved (st : Store) (dir : GoString) (msg : ReceivedMessage)
    (isShown : Bool) (data : List Nat) (hdir : dir ≠ [])
    (henv : st.GetEnvelope msg.EnvelopeHash = some data)
    (hw : st.WriteFile dir (hexEncode msg.EnvelopeHash) data = true) :
    writeMessageToFile st dir msg isShown =
      Event.writeFile dir (hexEncode msg.EnvelopeHash) data ::
        (if isShown then [Event.savedAs msg (hexEncode msg.EnvelopeHash) data.length] else []) := by
  have h0 : dir.length ≠ 0 := fun h => hdir (List.length_eq_zero.mp h)
  simp only [writeMessageToFile, h0, if_false, henv, hw, if_true]

theorem writeMessageToFile_console_le (st : Store) (dir : GoString) (msg : ReceivedMessage)
    (isShown : Bool) : ((writeMessageToFile st dir msg isShown).filter Event.isConsole).length ≤ 1 := by
  unfold writeMessageToFile
  split
  · simp
  · simp only
    split
    · simp [Event.isConsole]
    · split
      · cases isShown <;> simp [Event.isConsole]
      · simp [Event.isConsole]

/-- C11, counterexample: file-exchange mode off, a save directory configured, a
5-byte message. When the envelope is not found, or when the file write fails, the
message is printed by `printMessageInfo` and the save step writes a second line
to the console. -/
theorem handleMessage_second_console_line :
    handleMessage { emptyConfig with ArgSaveDir := str "dir" } refStore (msgOfSize 5) =
      [Event.printMessageInfo (msgOfSize 5), Event.envelopeNotFound []] ∧
    handleMessage { emptyConfig with ArgSaveDir := str "dir" } failStore (msgOfSize 5) =
      [Event.printMessageInfo (msgOfSize 5), Event.writeFile (str "dir") [] [1, 2, 3],
        Event.notSaved (msgOfSize 5)] ∧
    ((messageLoopTick { emptyConfig with ArgSaveDir := str "dir" } refStore [msgOfSize 5]
      []).filter Event.isConsole).length = 2 := by
  refine ⟨by decide, by decide, by decide⟩

/-- C11, amended: when no save directory is configured, or the envelope of the
message is found and the file write succeeds, the message loop writes at most one
console line for the message, and a message printed by `printMessageInfo` gets no
further line from the save step. (When the envelope is missing or the write
fails, the save step prints its error line in every case, so there are at most
two lines.) -/
theorem handleMessage_console_once (cfg : Config) (st : Store) (msg : ReceivedMessage)
    (h : cfg.ArgSaveDir = [] ∨ ∃ data, st.GetEnvelope msg.EnvelopeHash = some data ∧
      st.WriteFile cfg.ArgSaveDir (hexEncode msg.EnvelopeHash) data = true) :
    ((handleMessage cfg st msg).filter Event.isConsole).length ≤ 1 ∧
    ((!cfg.FileExMode && decide (msg.Payload.length ≤ 2048)) = true →
      (handleMessage cfg st msg).filter Event.isConsole = [Event.printMessageInfo msg]) ∧
    (∀ st2 : Store, ((handleMessage cfg st2 msg).filter Event.isConsole).length ≤ 2) := by
  have hgen : ∀ st2 : Store, ((handleMessage cfg st2 msg).filter Event.isConsole).length ≤ 2 := by
    intro st2
    unfold handleMessage
    simp only [List.filter_append, List.length_append]
    have h1 : ((if (!cfg.FileExMode && decide (msg.Payload.length ≤ 2048)) = true then
        [Event.printMessageInfo msg] else []).filter Event.isConsole).length ≤ 1 := by
      split <;> simp [Event.isConsole]
    have h2 : ((if cfg.ArgSaveDir.length > 0 then
        writeMessageToFile st2 cfg.ArgSaveDir msg
          (!(!cfg.FileExMode && decide (msg.Payload.length ≤ 2048)))
        else []).filter Event.isConsole).length ≤ 1 := by
      split
      · exact writeMessageToFile_console_le _ _ _ _
      · simp
    omega
  refine ⟨?_, ?_, hgen⟩
  · rcases h with hdir | ⟨data, henv, hw⟩
    · unfold handleMessage
      rw [hdir]
      simp only [List.length_nil, gt_iff_lt, lt_self_iff_false, if_false, List.append_nil]
      split <;> simp [Event.isConsole]
    · by_cases hdir : cfg.ArgSaveDir = []
      · unfold handleMessage
        rw [hdir]
        simp only [List.length_nil, gt_iff_lt, lt_self_iff_false, if_false, List.append_nil]
        split <;> simp [Event.isConsole]
      · have hpos : cfg.ArgSaveDir.length > 0 := List.length_pos.mpr hdir
        unfold handleMessage
        simp only [hpos, if_true]
        rw [writeMessageToFile_of_saved st _ msg _ data hdir henv hw]
        cases hc : (!cfg.FileExMode && decide (msg.Payload.length ≤ 2048)) <;>
          simp [Event.isConsole]
  · intro hc
    rcases h with hdir | ⟨data, henv, hw⟩
    · unfold handleMessage
      rw [hdir, hc]
      simp [Event.isConsole]
    · by_cases hdir : cfg.ArgSaveDir = []
      · unfold handleMessage
        rw [hdir, hc]
        simp [Event.isConsole]
      · have hpos : cfg.ArgSaveDir.length > 0 := List.length_pos.mpr hdir
        unfold handleMessage
        simp only [hpos, if_true]
        rw [writeMessageToFile_of_saved st _ msg _ data hdir henv hw, hc]
        simp [Event.isConsole]

/-- Witness of `handleMessage_console_once`: a 5-byte message, a save directory,
the envelope found and the write successful. -/
theorem handleMessage_console_once_witness :
    (({ emptyConfig with ArgSaveDir := str "dir" } : Config).ArgSaveDir = [] ∨
      ∃ data, fullStore.GetEnvelope (msgOfSize 5).EnvelopeHash = some data ∧
        fullStore.WriteFile ({ emptyConfig with ArgSaveDir := str "dir" } : Config).ArgSaveDir
          (hexEncode (msgOfSize 5).EnvelopeHash) data = true) ∧
    (((handleMessage { emptyConfig with ArgSaveDir := str "dir" } fullStore
        (msgOfSize 5)).filter Event.isConsole).length ≤ 1 ∧
      ((!({ emptyConfig with ArgSaveDir := str "dir" } : Config).FileExMode &&
          decide ((msgOfSize 5).Payload.length ≤ 2048)) = true →
        (handleMessage { emptyConfig with ArgSaveDir := str "dir" } fullStore
          (msgOfSize 5)).filter Event.isConsole = [Event.printMessageInfo (msgOfSize 5)]) ∧
      (∀ st2 : Store, ((handleMessage { emptyConfig with ArgSaveDir := str "dir" } st2
        (msgOfSize 5)).filter Event.isConsole).length ≤ 2)) :=
  ⟨Or.inr ⟨[1, 2, 3], rfl, rfl⟩,
    handleMessage_console_once { emptyConfig with ArgSaveDir := str "dir" } fullStore
      (msgOfSize 5) (Or.inr ⟨[1, 2, 3], rfl, rfl⟩)⟩

/-- C12, counterexample: a save directory is configured and the envelope of the
retrieved message is not found by `shh.GetEnvelope`; the tick prints the error
line and issues no file write. -/
theorem messageLoopTick_envelope_missing :
    messageLoopTick { emptyConfig with ArgSaveDir := str "dir" } refStore [msgOfSize 5] [] =
      [Event.printMessageInfo (msgOfSize 5), Event.envelopeNotFound []] ∧
    (messageLoopTick { emptyConfig with ArgSaveDir := str "dir" } refStore [msgOfSize 5]
      []).filterMap Event.written = [] := by
  refine ⟨by decide, by decide⟩

/-- C12, amended: when a save directory is configured, for every retrieved message
whose envelope `shh.GetEnvelope` returns, printed or not, the tick issues one file
write, to the save directory under the lower-case hexadecimal text of the envelope
hash, with the data of the envelope as content. -/
theorem messageLoopTick_writes_envelope (cfg : Config) (st : Store)
    (m1 m2 : List ReceivedMessage) (msg : ReceivedMessage) (data : List Nat)
    (hdir : cfg.ArgSaveDir ≠ []) (hmem : msg ∈ m1 ++ m2)
    (henv : st.GetEnvelope msg.EnvelopeHash = some data) :
    Event.writeFile cfg.ArgSaveDir (hexEncode msg.EnvelopeHash) data ∈
      messageLoopTick cfg st m1 m2 ∧
    (handleMessage cfg st msg).filterMap Event.written =
      [(cfg.ArgSaveDir, hexEncode msg.EnvelopeHash, data)] ∧
    hexEncode [0xAB, 0x01, 0xF0] = str "ab01f0" := by
  have hpos : cfg.ArgSaveDir.length > 0 := List.length_pos.mpr hdir
  have h0 : cfg.ArgSaveDir.length ≠ 0 := by omega
  have hh : ∀ b, writeMessageToFile st cfg.ArgSaveDir msg b =
      if st.WriteFile cfg.ArgSaveDir (hexEncode msg.EnvelopeHash) data = true then
        Event.writeFile cfg.ArgSaveDir (hexEncode msg.EnvelopeHash) data ::
          (if b = true then [Event.savedAs msg (hexEncode msg.EnvelopeHash) data.length] else [])
      else [Event.writeFile cfg.ArgSaveDir (hexEncode msg.EnvelopeHash) data,
        Event.notSaved msg] := by
    intro b
    simp only [writeMessageToFile, h0, if_false, henv]
  refine ⟨?_, ?_, by decide⟩
  · unfold messageLoopTick
    rw [List.mem_flatMap]
    refine ⟨msg, hmem, ?_⟩
    unfold handleMessage
    simp only [hpos, if_true, hh]
    apply List.mem_append_right
    split <;> simp
  · unfold handleMessage
    simp only [hpos, if_true, hh, List.filterMap_append]
    have hp : (if (!cfg.FileExMode && decide (msg.Payload.length ≤ 2048)) = true then
        [Event.printMessageInfo msg] else []).filterMap Event.written = [] := by
      split <;> rfl
    rw [hp, List.nil_append]
    split
    · split <;> rfl
    · rfl

/-- Witness of `messageLoopTick_writes_envelope`: one 5-byte message of the
symmetric filter, the envelope found. -/
theorem messageLoopTick_writes_envelope_witness :
    (({ emptyConfig with ArgSaveDir := str "dir" } : Config).ArgSaveDir ≠ [] ∧
      msgOfSize 5 ∈ [msgOfSize 5] ++ [] ∧
      fullStore.GetEnvelope (msgOfSize 5).EnvelopeHash = some [1, 2, 3]) ∧
    (Event.writeFile ({ emptyConfig with ArgSaveDir := str "dir" } : Config).ArgSaveDir
        (hexEncode (msgOfSize 5).EnvelopeHash) [1, 2, 3] ∈
      messageLoopTick { emptyConfig with ArgSaveDir := str "dir" } fullStore [msgOfSize 5] [] ∧
    (handleMessage { emptyConfig with ArgSaveDir := str "dir" } fullStore
      (msgOfSize 5)).filterMap Event.written =
      [(({ emptyConfig with ArgSaveDir := str "dir" } : Config).ArgSaveDir,
        hexEncode (msgOfSize 5).EnvelopeHash, [1, 2, 3])] ∧
    hexEncode [0xAB, 0x01, 0xF0] = str "ab01f0") :=
  ⟨⟨by decide, by decide, rfl⟩,
    messageLoopTick_writes_envelope { emptyConfig with ArgSaveDir := str "dir" } fullStore
      [msgOfSize 5] [] (msgOfSize 5) [1, 2, 3] (by decide) (by decide) rfl⟩


/-! ## Sending -/

theorem sendMsg_eq (t : Transport) (x : ConfigExt) (s : Session) (payload : List Nat) :
    sendMsg t x s payload =
      if t.NewSentMessage (messageParams x s payload) = true then
        Result.ok (match t.Wrap (messageParams x s payload) with
          | none => zeroHash
          | some envelope => if t.Send envelope = true then t.Hash envelope else zeroHash)
      else Result.fatal "failed to create new message" := by
  simp only [sendMsg]
  cases hn : t.NewSentMessage (messageParams x s payload)
  · simp
  · cases hw : t.Wrap (messageParams x s payload) with
    | none => simp
    | some envelope => cases hs : t.Send envelope <;> simp [hs]

/-- C13: `sendMsg` ends in `utils.Fatalf` exactly when `NewSentMessage` fails and
never faults. When the message is created and sealing or sending fails, it
returns the zero hash; when all three succeed, it returns the hash of the sealed
envelope. After a returned hash `sendLoop` goes on with the next line of input. -/
theorem sendMsg_outcomes (t : Transport) (x : ConfigExt) (s : Session) (payload : List Nat)
    (hnew : t.NewSentMessage (messageParams x s payload) = true) :
    (∀ s2 p2, (∃ msg, sendMsg t x s2 p2 = .fatal msg) ↔
      t.NewSentMessage (messageParams x s2 p2) = false) ∧
    (∀ s2 p2, sendMsg t x s2 p2 ≠ .crash) ∧
    (t.Wrap (messageParams x s payload) = none → sendMsg t x s payload = .ok zeroHash) ∧
    (∀ envelope, t.Wrap (messageParams x s payload) = some envelope →
      sendMsg t x s payload = .ok (if t.Send envelope then t.Hash envelope else zeroHash)) ∧
    (∀ raw rest n, trimRight raw ≠ quitCommand → trimRight raw = payload →
      (s.config.AsymmetricMode = true → s.asymKey ≠ none) →
      ∃ h, sendMsg t x s payload = .ok h ∧
        sendLoop t x s (n + 1) (raw :: rest) =
          (h :: (sendLoop t x s n rest).1, (sendLoop t x s n rest).2)) := by
  refine ⟨?_, ?_, ?_, ?_, ?_⟩
  · intro s2 p2
    rw [sendMsg_eq]
    cases hn : t.NewSentMessage (messageParams x s2 p2)
    · simp
    · simp
  · intro s2 p2
    rw [sendMsg_eq]
    split <;> simp
  · intro hw
    rw [sendMsg_eq, if_pos hnew, hw]
  · intro envelope hw
    rw [sendMsg_eq, if_pos hnew, hw]
  · intro raw rest n hq hp hk
    have hh := sendMsg_eq t x s payload
    rw [if_pos hnew] at hh
    refine ⟨_, hh, ?_⟩
    have hcond : (s.config.AsymmetricMode && s.asymKey.isNone) = false := by
      cases ha : s.config.AsymmetricMode
      · rfl
      · have := hk ha
        cases hkey : s.asymKey with
        | none => exact absurd hkey this
        | some k => rfl
    simp only [sendLoop, scanLine, hp, hh, hcond]
    rw [if_neg (by rw [← hp]; exact hq)]
    simp

/-- Witness of `sendMsg_outcomes`: the payload `hi`, created, sealed and sent. -/
theorem sendMsg_outcomes_witness :
    refTransport.NewSentMessage (messageParams refExt (Session.init emptyConfig) (str "hi")) =
      true ∧
    sendMsg refTransport refExt (Session.init emptyConfig) (str "hi") =
      .ok (List.replicate 32 104) ∧
    sendMsg refTransport refExt (Session.init emptyConfig) (str "w") = .ok zeroHash ∧
    sendMsg refTransport refExt (Session.init emptyConfig) (str "s") = .ok zeroHash ∧
    sendMsg refTransport refExt (Session.init emptyConfig) [] =
      .fatal "failed to create new message" ∧
    sendLoop refTransport refExt (Session.init emptyConfig) 4
      [str "w\n", str "s\n", str "hi\n", str "~Q\n"] =
      ([zeroHash, zeroHash, List.replicate 32 104], .returned) ∧
    (∀ envelope,
      refTransport.Wrap (messageParams refExt (Session.init emptyConfig) (str "hi")) =
        some envelope →
      sendMsg refTransport refExt (Session.init emptyConfig) (str "hi") =
        .ok (if refTransport.Send envelope then refTransport.Hash envelope else zeroHash)) :=
  ⟨by decide, by decide, by decide, by decide, by decide, by decide,
    (sendMsg_outcomes refTransport refExt (Session.init emptyConfig) (str "hi")
      (by decide)).2.2.2.1⟩

/-! ## Peer address, byte indices, integer input -/

/-- C16, evaluated on the code: with the peer address `abc`, shorter than
`enode://`, the slice expression `(config.ArgEnode)[:len(enodePrefix)]` is out of
range and `processArgs` ends in a run-time fault. An address of at least 8 bytes
is normalised: `1234567890` gets the text `enode://` in front, `enode://abcd` is
left unchanged. -/
theorem processArgs_short_enode_faults (env : Env) (w : Whisper) :
    processArgs env w (Session.init { emptyConfig with ArgEnode := str "abc" }) = .crash ∧
    processArgs env w (Session.init { emptyConfig with ArgEnode := str "1234567890" }) =
      .ok (Session.init { emptyConfig with ArgEnode := str "enode://1234567890" }) ∧
    processArgs env w (Session.init { emptyConfig with ArgEnode := str "enode://abcd" }) =
      .ok (Session.init { emptyConfig with ArgEnode := str "enode://abcd" }) :=
  ⟨rfl, rfl, rfl⟩

/-- C17: on a bloom of at least 64 bytes `obfuscateBloom` returns without an
index out of range: every bit number used has a byte index of at most 63, the
length of the bloom is unchanged and every byte at index 64 or above keeps its
value. -/
theorem obfuscateBloom_in_range (e : Entropy) (bloom : List Nat)
    (hlen : BloomFilterSize ≤ bloom.length) :
    ∃ out xs, obfuscateBloomTrace e bloom = some (out, xs) ∧
      obfuscateBloom e bloom = some out ∧
      (∀ x ∈ xs, x / 8 ≤ 63) ∧ out.length = bloom.length ∧
      ∀ k, 64 ≤ k → out.getD k 0 = bloom.getD k 0 := by
  obtain ⟨out, hout, hl⟩ := obfuscateLoop_some e half 0 bloom hlen
  refine ⟨out, (List.range' 0 half).map (bitNumber e), ?_, hout, ?_, hl, ?_⟩
  · simp [obfuscateBloomTrace, obfuscateLoopTrace_eq, hout]
  · intro x hx
    rw [List.mem_map] at hx
    obtain ⟨i, _, rfl⟩ := hx
    have := bitNumber_lt e i
    omega
  · intro k hk
    rcases obfuscateLoop_byte e half 0 bloom out hout k with h1 | ⟨j, _, _, hj, _⟩
    · exact h1
    · have := bitNumber_lt e j
      omega

/-- Witness of `obfuscateBloom_in_range`: the all-zero entropy buffer and a bloom
of 65 bytes. -/
theorem obfuscateBloom_in_range_witness :
    BloomFilterSize ≤ (List.replicate 65 7).length ∧
    ∃ out xs, obfuscateBloomTrace zeroEntropy (List.replicate 65 7) = some (out, xs) ∧
      obfuscateBloom zeroEntropy (List.replicate 65 7) = some out ∧
      (∀ x ∈ xs, x / 8 ≤ 63) ∧ out.length = (List.replicate 65 7).length ∧
      ∀ k, 64 ≤ k → out.getD k 0 = (List.replicate 65 7).getD k 0 :=
  ⟨by decide, obfuscateBloom_in_range zeroEntropy (List.replicate 65 7) (by decide)⟩

/-- C18: when `strconv.Atoi` parses the line entered as the integer `n`,
`scanUint` returns `n` reduced modulo `2 ^ 32`; a value outside the unsigned
32-bit range is accepted and wrapped: `-1` yields 4294967295 and `4294967296`
yields 0, and an upper bound entered as `4294967296` is serialised as the
unbounded value `FF FF FF FF`. -/
theorem scanUint_wraps (line : GoString) (rest : Stdin) (n : Int)
    (h : Atoi (trimRight line) = some n) :
    scanUint (line :: rest) = .ok ((n % 2 ^ 32).toNat, rest) ∧
    (n % 2 ^ 32).toNat < 2 ^ 32 ∧
    ((n % 2 ^ 32).toNat : Int) = n % 2 ^ 32 ∧
    scanUint [str "-1\n"] = .ok (4294967295, []) ∧
    scanUint [str "4294967296\n"] = .ok (0, []) ∧
    (∀ (w : Whisper) (e : Entropy),
      buildRequest w e [str "5\n", str "4294967296\n", str "\n"] =
        .ok (Built.payload ([0, 0, 0, 5, 0xFF, 0xFF, 0xFF, 0xFF] ++ w.MakeFullNodeBloom), [])) := by
  have hpos : (0 : Int) ≤ n % 2 ^ 32 := Int.emod_nonneg _ (by norm_num)
  have hlt : n % 2 ^ 32 < 2 ^ 32 := Int.emod_lt_of_pos _ (by norm_num)
  refine ⟨?_, ?_, ?_, by decide, by decide, ?_⟩
  · simp only [scanUint, scanLine, h, toUint32]
  · omega
  · exact Int.toNat_of_nonneg hpos
  · intro w e
    have h1 : Atoi (trimRight (str "5\n")) = some 5 := by decide
    have h2 : Atoi (trimRight (str "4294967296\n")) = some 4294967296 := by decide
    rw [buildRequest_of_bounds w e _ _ _ [] 5 4294967296 h1 h2]
    rfl

/-- Witness of `scanUint_wraps`: the line `-1`. -/
theorem scanUint_wraps_witness :
    Atoi (trimRight (str "-1\n")) = some (-1) ∧
    scanUint (str "-1\n" :: []) = .ok (((-1 : Int) % 2 ^ 32).toNat, []) ∧
    ((-1 : Int) % 2 ^ 32).toNat = 4294967295 :=
  ⟨by decide, (scanUint_wraps (str "-1\n") [] (-1) (by decide)).1, by decide⟩


/-! ## Encryption modes and filters -/

theorem Result.bind_eq_ok {α β : Type} {r : Result α} {f : α → Result β} {b : β}
    (h : r.bind f = .ok b) : ∃ a, r = .ok a ∧ f a = .ok b := by
  cases r with
  | ok a => exact ⟨a, rfl, h⟩
  | fatal msg => cases h
  | crash => cases h

theorem processArgs_eq_stages (env : Env) (w : Whisper) (s0 : Session) :
    processArgs env w s0 = argsIDFile env w s0 := rfl

theorem argsSaveDir_frame (env : Env) (s5 s : Session) (h : argsSaveDir env s5 = .ok s) :
    s = s5 := by
  unfold argsSaveDir at h
  split at h
  · split at h
    · cases h; rfl
    · cases h
  · split at h
    · cases h
    · cases h; rfl

theorem argsPub_frame (env : Env) (s4 s : Session) (h : argsPub env s4 = .ok s) :
    s.symKey = s4.symKey ∧ s.config = s4.config ∧
      (s.pub = s4.pub ∨ s4.config.AsymmetricMode = true) := by
  unfold argsPub at h
  split at h
  · rename_i hc
    have ha : s4.config.AsymmetricMode = true := by
      simp only [Bool.and_eq_true] at hc
      exact hc.1
    split at h
    · simp only [Result.bind] at h
      rw [argsSaveDir_frame env _ s h]
      exact ⟨rfl, rfl, Or.inr ha⟩
    · cases h
    · cases h
    · cases h
  · simp only [Result.bind] at h
    rw [argsSaveDir_frame env _ s h]
    exact ⟨rfl, rfl, Or.inl rfl⟩

theorem argsTopic_frame (env : Env) (w : Whisper) (s3 s : Session)
    (h : argsTopic env w s3 = .ok s) :
    s.symKey = s3.symKey ∧ s.config = s3.config ∧
      (s.pub = s3.pub ∨ s3.config.AsymmetricMode = true) := by
  unfold argsTopic at h
  split at h
  · split at h
    · cases h
    · simp only [Result.bind] at h
      have h2 := argsPub_frame env _ s h
      exact h2
  · simp only [Result.bind] at h
    exact argsPub_frame env _ s h

theorem argsEnode_frame (env : Env) (w : Whisper) (s2 s : Session)
    (h : argsEnode env w s2 = .ok s) :
    s.symKey = s2.symKey ∧ s.config.AsymmetricMode = s2.config.AsymmetricMode ∧
      s.config.ForwarderMode = s2.config.ForwarderMode ∧
      (s.pub = s2.pub ∨ s2.config.AsymmetricMode = true) := by
  unfold argsEnode at h
  split at h
  · split at h
    · split at h
      · simp only [Result.bind] at h
        obtain ⟨a, b, c⟩ := argsTopic_frame env w _ s h
        exact ⟨a, by rw [b], by rw [b], c⟩
      · simp only [Result.bind] at h
        obtain ⟨a, b, c⟩ := argsTopic_frame env w _ s h
        exact ⟨a, by rw [b], by rw [b], c⟩
    · cases h
  · simp only [Result.bind] at h
    obtain ⟨a, b, c⟩ := argsTopic_frame env w _ s h
    exact ⟨a, by rw [b], by rw [b], c⟩

theorem argsPrivateKey_frame (env : Env) (w : Whisper) (s1 s : Session)
    (h : argsPrivateKey env w s1 = .ok s) :
    s.symKey = s1.symKey ∧ s.config.AsymmetricMode = s1.config.AsymmetricMode ∧
      s.config.ForwarderMode = s1.config.ForwarderMode ∧
      (s.pub = s1.pub ∨ s1.config.AsymmetricMode = true) := by
  unfold argsPrivateKey at h
  split at h
  · split at h
    · cases h
    · simp only [Result.bind] at h
      have h2 := argsEnode_frame env w _ s h
      exact h2
  · simp only [Result.bind] at h
    exact argsEnode_frame env w _ s h

/-- What `processArgs` leaves unchanged: the symmetric key and the mode switches;
the destination public key is assigned in asymmetric mode only. -/
theorem processArgs_frame (env : Env) (w : Whisper) (s0 s : Session)
    (h : processArgs env w s0 = .ok s) :
    s.symKey = s0.symKey ∧ s.config.AsymmetricMode = s0.config.AsymmetricMode ∧
      s.config.ForwarderMode = s0.config.ForwarderMode ∧
      (s.pub = s0.pub ∨ s0.config.AsymmetricMode = true) := by
  rw [processArgs_eq_stages] at h
  unfold argsIDFile at h
  split at h
  · split at h
    · cases h
    · simp only [Result.bind] at h
      have h2 := argsPrivateKey_frame env w _ s h
      exact h2
  · simp only [Result.bind] at h
    exact argsPrivateKey_frame env w _ s h

/-! ### The steps of `configureNode` -/

theorem promptPassword_frame (msg : String) (st st1 : NodeState) (p : GoString)
    (h : promptPassword msg st = .ok (p, st1)) :
    st1.session = st.session ∧ st1.ext = st.ext ∧ st1.stdin = st.stdin := by
  unfold promptPassword at h
  split at h
  · cases h; exact ⟨rfl, rfl, rfl⟩
  · cases h

theorem configurePub_frame (ne : NodeEnv) (st st1 : NodeState)
    (h : configurePub ne st = .ok st1) :
    st1.session.symKey = st.session.symKey ∧ st1.session.config = st.session.config ∧
      st1.session.asymKey = st.session.asymKey ∧ st1.session.topic = st.session.topic ∧
      (st1.session.pub = st.session.pub ∨ st.session.config.AsymmetricMode = true) := by
  unfold configurePub at h
  split at h
  · rename_i ha
    split at h
    · split at h
      · split at h
        · cases h
        · cases h; exact ⟨rfl, rfl, rfl, rfl, Or.inr ha⟩
      · split at h
        · cases h
        · cases h
        · split at h
          · cases h
          · split at h
            · cases h; exact ⟨rfl, rfl, rfl, rfl, Or.inr ha⟩
            · cases h
            · cases h
            · cases h
    · cases h; exact ⟨rfl, rfl, rfl, rfl, Or.inl rfl⟩
  · cases h; exact ⟨rfl, rfl, rfl, rfl, Or.inl rfl⟩

theorem configureMailPassword_frame (st st1 : NodeState)
    (h : configureMailPassword st = .ok st1) :
    st1.session.symKey = st.session.symKey ∧ st1.session.config = st.session.config ∧
      st1.session.asymKey = st.session.asymKey ∧ st1.session.topic = st.session.topic ∧
      st1.session.pub = st.session.pub := by
  unfold configureMailPassword at h
  split at h
  · split at h
    · split at h
      · rename_i p st2 hp
        obtain ⟨hs, _, _⟩ := promptPassword_frame _ st st2 p hp
        cases h
        simp [hs]
      · cases h
      · cases h
    · cases h; exact ⟨rfl, rfl, rfl, rfl, rfl⟩
  · cases h; exact ⟨rfl, rfl, rfl, rfl, rfl⟩

theorem configureSymKey_frame (ne : NodeEnv) (kdf : KDF) (st st1 : NodeState)
    (h : configureSymKey ne kdf st = .ok st1) :
    st1.session.config = st.session.config ∧ st1.session.asymKey = st.session.asymKey ∧
      st1.session.pub = st.session.pub ∧
      ((st.session.config.AsymmetricMode = true ∨ st.session.config.ForwarderMode = true) ∧
          st1.session.symKey = st.session.symKey ∨
        st.session.config.AsymmetricMode = false ∧ st.session.config.ForwarderMode = false ∧
          st1.session.symKey.isSome = true) := by
  unfold configureSymKey at h
  split at h
  · rename_i hc
    have hmode : st.session.config.AsymmetricMode = false ∧
        st.session.config.ForwarderMode = false := by
      simpa using hc
    simp only at h
    split at h
    · cases h
    · cases h
    · rename_i st2 hr
      have hst2 : st2.session.config = st.session.config ∧
          st2.session.asymKey = st.session.asymKey ∧ st2.session.pub = st.session.pub := by
        split at hr
        · split at hr
          · rename_i p st3 hp
            obtain ⟨hs, _, _⟩ := promptPassword_frame _ st st3 p hp
            cases hr
            simp [hs]
          · cases hr
          · cases hr
        · cases hr; exact ⟨rfl, rfl, rfl⟩
      split at h
      · cases h
      · split at h
        · cases h
        · cases h
          obtain ⟨c, a, p⟩ := hst2
          refine ⟨?_, ?_, ?_, Or.inr ⟨hmode.1, hmode.2, ?_⟩⟩
          · simp only
            split <;> exact c
          · simp only
            split <;> exact a
          · simp only
            split <;> exact p
          · simp only
            split <;> rfl
  · rename_i hc
    cases h
    refine ⟨rfl, rfl, rfl, Or.inl ⟨?_, rfl⟩⟩
    cases ha : st.session.config.AsymmetricMode
    · cases hf : st.session.config.ForwarderMode
      · simp [ha, hf] at hc
      · exact Or.inr rfl
    · exact Or.inl rfl

theorem configureDBPath_frame (st st1 : NodeState) (h : configureDBPath st = .ok st1) :
    st1.session = st.session := by
  unfold configureDBPath at h
  split at h
  · split at h
    · split at h
      · cases h; rfl
      · cases h
      · cases h
    · cases h; rfl
  · cases h; rfl

theorem installFilters_eq (ne : NodeEnv) (st : NodeState) (c : Configured)
    (h : installFilters ne st = .ok c) :
    c.state = st ∧ c.filters = [symFilter st.session, asymFilter st.session] ∧
      ne.Subscribe (symFilter st.session) = some c.symFilterID ∧
      ne.Subscribe (asymFilter st.session) = some c.asymFilterID := by
  unfold installFilters at h
  cases hs : ne.Subscribe (symFilter st.session) with
  | none =>
    simp only [hs] at h
    cases h
  | some symID =>
    cases ha : ne.Subscribe (asymFilter st.session) with
    | none =>
      simp only [hs, ha] at h
      cases h
    | some asymID =>
      simp only [hs, ha] at h
      cases h
      exact ⟨rfl, rfl, rfl, rfl⟩

theorem configureNode_steps (ne : NodeEnv) (kdf : KDF) (st : NodeState) (c : Configured)
    (hf : st.session.config.ForwarderMode = false) (h : configureNode ne kdf st = .ok c) :
    c.filters = [symFilter c.state.session, asymFilter c.state.session] ∧
      c.state.session.config = st.session.config ∧
      c.state.session.asymKey = st.session.asymKey ∧
      (c.state.session.pub = st.session.pub ∨ st.session.config.AsymmetricMode = true) ∧
      (st.session.config.AsymmetricMode = true ∧
          c.state.session.symKey = st.session.symKey ∨
        st.session.config.AsymmetricMode = false ∧ c.state.session.symKey.isSome = true) := by
  unfold configureNode at h
  rw [if_neg (by rw [hf]; simp)] at h
  simp only [bind] at h
  obtain ⟨st1, h1, h⟩ := Result.bind_eq_ok h
  obtain ⟨st2, h2, h⟩ := Result.bind_eq_ok h
  obtain ⟨st3, h3, h⟩ := Result.bind_eq_ok h
  obtain ⟨st4, h4, h⟩ := Result.bind_eq_ok h
  obtain ⟨a1, b1, c1, _, e1⟩ := configurePub_frame ne st st1 h1
  obtain ⟨a2, b2, c2, _, e2⟩ := configureMailPassword_frame st1 st2 h2
  obtain ⟨b3, c3, e3, f3⟩ := configureSymKey_frame ne kdf st2 st3 h3
  have g4 := configureDBPath_frame st3 st4 h4
  obtain ⟨hstate, hfil, _, _⟩ := installFilters_eq ne st4 c h
  have hcfg2 : st2.session.config = st.session.config := by rw [b2, b1]
  rw [hstate, g4]
  refine ⟨by rw [hfil, g4], by rw [b3, hcfg2], by rw [c3, c2, c1], ?_, ?_⟩
  · rw [e3, e2]
    exact e1
  · rw [hcfg2] at f3
    rcases f3 with ⟨hm, hk⟩ | ⟨hm, _, hk⟩
    · rcases hm with hm | hm
      · exact Or.inl ⟨hm, by rw [hk, a2, a1]⟩
      · rw [hf] at hm
        cases hm
    · exact Or.inr ⟨hm, hk⟩

/-- C14: in the session that `processArgs` and `configureNode` leave, the symmetric
key and the destination public key are never both set: the symmetric key is set
only when `AsymmetricMode` is false, the public key only when it is true, and
the message parameters of `sendMsg` never carry both. The state `st` is the one in
which `configureNode` starts; between the two functions `initialize` leaves the
symmetric key, the public key and the mode switch as `processArgs` left them. -/
theorem session_modes_exclusive (env : Env) (w : Whisper) (ne : NodeEnv) (kdf : KDF)
    (cfg : Config) (s1 : Session) (st : NodeState) (c : Configured)
    (h1 : processArgs env w (Session.init cfg) = .ok s1)
    (hinit : st.session.symKey = s1.symKey ∧ st.session.pub = s1.pub ∧
      st.session.config.AsymmetricMode = s1.config.AsymmetricMode)
    (h2 : configureNode ne kdf st = .ok c) :
    ¬ (c.state.session.symKey.isSome = true ∧ c.state.session.pub.isSome = true) ∧
    (c.state.session.symKey.isSome = true → c.state.session.config.AsymmetricMode = false) ∧
    (c.state.session.pub.isSome = true → c.state.session.config.AsymmetricMode = true) ∧
    c.state.session.config.AsymmetricMode = cfg.AsymmetricMode ∧
    (∀ x payload, ¬ ((messageParams x c.state.session payload).KeySym.isSome = true ∧
      (messageParams x c.state.session payload).Dst.isSome = true)) := by
  obtain ⟨p1, p2, _, p4⟩ := processArgs_frame env w _ s1 h1
  obtain ⟨i1, i2, i3⟩ := hinit
  have hmode : st.session.config.AsymmetricMode = cfg.AsymmetricMode := by
    rw [i3, p2]
    rfl
  have hsym0 : st.session.symKey = none := by
    rw [i1, p1]
    rfl
  have hpub0 : st.session.pub = none ∨ cfg.AsymmetricMode = true := by
    rcases p4 with p4 | p4
    · left
      rw [i2, p4]
      rfl
    · exact Or.inr p4
  have key : (c.state.session.symKey.isSome = true →
        c.state.session.config.AsymmetricMode = false) ∧
      (c.state.session.pub.isSome = true → c.state.session.config.AsymmetricMode = true) ∧
      c.state.session.config.AsymmetricMode = cfg.AsymmetricMode := by
    by_cases hf : st.session.config.ForwarderMode = true
    · have hc : c.state = st := by
        unfold configureNode at h2
        rw [if_pos hf] at h2
        cases h2
        rfl
      rw [hc]
      refine ⟨?_, ?_, hmode⟩
      · intro hk
        rw [hsym0] at hk
        cases hk
      · intro hk
        rcases hpub0 with hp | hp
        · rw [hp] at hk
          cases hk
        · rw [hmode, hp]
    · have hf2 : st.session.config.ForwarderMode = false := by
        cases hv : st.session.config.ForwarderMode
        · rfl
        · exact absurd hv hf
      obtain ⟨_, q2, _, q4, q5⟩ := configureNode_steps ne kdf st c hf2 h2
      rw [q2]
      refine ⟨?_, ?_, hmode⟩
      · intro hk
        rcases q5 with ⟨_, hs⟩ | ⟨hm, _⟩
        · rw [hs, hsym0] at hk
          cases hk
        · exact hm
      · intro hk
        rcases q4 with hp | hp
        · rcases hpub0 with hp0 | hp0
          · rw [hp, hp0] at hk
            cases hk
          · rw [hmode, hp0]
        · exact hp
  obtain ⟨k1, k2, k3⟩ := key
  have hnot : ¬ (c.state.session.symKey.isSome = true ∧ c.state.session.pub.isSome = true) := by
    rintro ⟨ha, hb⟩
    have := k1 ha
    rw [k2 hb] at this
    cases this
  exact ⟨hnot, k1, k2, k3, fun x payload => hnot⟩

/-- Witness of `session_modes_exclusive`: a symmetric session with the password
`pw`; `configureNode` sets the symmetric key and leaves the public key unset. -/
theorem session_modes_exclusive_witness :
    (processArgs refEnv refWhisper (Session.init emptyConfig) = .ok (Session.init emptyConfig) ∧
      (symState.session.symKey = (Session.init emptyConfig).symKey ∧
        symState.session.pub = (Session.init emptyConfig).pub ∧
        symState.session.config.AsymmetricMode =
          (Session.init emptyConfig).config.AsymmetricMode) ∧
      configureNode refNodeEnv refKDF symState =
        .ok ⟨{ symState with session := symSession }, str "f", str "f",
          [symFilter symSession, asymFilter symSession]⟩) ∧
    (¬ (symSession.symKey.isSome = true ∧ symSession.pub.isSome = true) ∧
      (symSession.symKey.isSome = true → symSession.config.AsymmetricMode = false) ∧
      (symSession.pub.isSome = true → symSession.config.AsymmetricMode = true) ∧
      symSession.config.AsymmetricMode = emptyConfig.AsymmetricMode ∧
      (∀ x payload, ¬ ((messageParams x symSession payload).KeySym.isSome = true ∧
        (messageParams x symSession payload).Dst.isSome = true))) ∧
    symSession.symKey = some (str "pw") ∧ symSession.pub = none :=
  ⟨⟨rfl, ⟨rfl, rfl, rfl⟩, by decide⟩,
    session_modes_exclusive refEnv refWhisper refNodeEnv refKDF emptyConfig
      (Session.init emptyConfig) symState
      ⟨{ symState with session := symSession }, str "f", str "f",
        [symFilter symSession, asymFilter symSession]⟩
      rfl ⟨rfl, rfl, rfl⟩ (by decide),
    rfl, rfl⟩

/-- C15, counterexample: an asymmetric session that listens with its own public
key. `configureNode` registers two filters, and the first one, the symmetric
filter, has neither a symmetric nor an asymmetric key. -/
theorem configureNode_keyless_filter :
    configureNode refNodeEnv refKDF asymState =
      .ok ⟨{ asymState with session := asymSession }, str "f", str "f",
        [⟨none, none, [zeroTopic], false⟩, ⟨none, some refKey, [zeroTopic], false⟩]⟩ ∧
    symFilter asymSession = ⟨none, none, [zeroTopic], false⟩ := by
  refine ⟨by decide, by decide⟩

/-- C15, amended: for a configuration that is not in forwarder mode, started with
the key pair present and no symmetric key, `configureNode` registers two filters
with the session topic and the peer-to-peer allowance flag, and no filter has both
kinds of key. The asymmetric filter has the asymmetric key only; the symmetric
filter has the symmetric key only in symmetric mode and no key in asymmetric
mode. -/
theorem configureNode_filters (ne : NodeEnv) (kdf : KDF) (st : NodeState) (c : Configured)
    (hf : st.session.config.ForwarderMode = false) (hsym : st.session.symKey = none)
    (hkey : st.session.asymKey.isSome = true) (h : configureNode ne kdf st = .ok c) :
    c.filters = [symFilter c.state.session, asymFilter c.state.session] ∧
    (∀ f ∈ c.filters, ¬ (f.KeySym.isSome = true ∧ f.KeyAsym.isSome = true) ∧
      f.Topics = [c.state.session.topic] ∧ f.AllowP2P = st.session.config.RequestMail) ∧
    ((asymFilter c.state.session).KeyAsym.isSome = true ∧
      (asymFilter c.state.session).KeySym = none) ∧
    (symFilter c.state.session).KeyAsym = none ∧
    ((symFilter c.state.session).KeySym.isSome =
      !st.session.config.AsymmetricMode) := by
  obtain ⟨q1, q2, q3, _, q5⟩ := configureNode_steps ne kdf st c hf h
  refine ⟨q1, ?_, ?_, rfl, ?_⟩
  · intro f hmem
    rw [q1] at hmem
    simp only [List.mem_cons, List.mem_singleton, List.not_mem_nil, or_false] at hmem
    rcases hmem with rfl | rfl
    · refine ⟨?_, rfl, ?_⟩
      · simp [symFilter]
      · simp [symFilter, q2]
    · refine ⟨?_, rfl, ?_⟩
      · simp [asymFilter]
      · simp [asymFilter, q2]
  · refine ⟨?_, rfl⟩
    show c.state.session.asymKey.isSome = true
    rw [q3]
    exact hkey
  · show c.state.session.symKey.isSome = !st.session.config.AsymmetricMode
    rcases q5 with ⟨hm, hs⟩ | ⟨hm, hs⟩
    · rw [hs, hsym, hm]
      rfl
    · rw [hs, hm]
      rfl

/-- Witness of `configureNode_filters`: the asymmetric session that listens with
its own public key. -/
theorem configureNode_filters_witness :
    (asymState.session.config.ForwarderMode = false ∧ asymState.session.symKey = none ∧
      asymState.session.asymKey.isSome = true ∧
      configureNode refNodeEnv refKDF asymState =
        .ok ⟨{ asymState with session := asymSession }, str "f", str "f",
          [symFilter asymSession, asymFilter asymSession]⟩) ∧
    ([symFilter asymSession, asymFilter asymSession] =
        [symFilter asymSession, asymFilter asymSession] ∧
      (∀ f ∈ [symFilter asymSession, asymFilter asymSession],
        ¬ (f.KeySym.isSome = true ∧ f.KeyAsym.isSome = true) ∧
        f.Topics = [asymSession.topic] ∧ f.AllowP2P = asymState.session.config.RequestMail) ∧
      ((asymFilter asymSession).KeyAsym.isSome = true ∧
        (asymFilter asymSession).KeySym = none) ∧
      (symFilter asymSession).KeyAsym = none ∧
      ((symFilter asymSession).KeySym.isSome = !asymState.session.config.AsymmetricMode)) :=
  ⟨⟨rfl, rfl, rfl, by decide⟩,
    configureNode_filters refNodeEnv refKDF asymState
      ⟨{ asymState with session := asymSession }, str "f", str "f",
        [symFilter asymSession, asymFilter asymSession]⟩ rfl rfl rfl (by decide)⟩

end Wnode
